import Mathlib

/-!
Verification development for the `videoframe` package of the
Azunyan1111/interceptor repository (video frame reassembly core).

The Go source is shallowly embedded: Go structs become Lean structures,
pointer-typed optional fields become `Option`, in-place mutation becomes
explicit state passing, `int64` becomes `Int`, `uint16`/`uint32` become
`Nat` with explicit `% 2^w` where the code masks, and the bounded scan
loops of the packet buffer become fuel-indexed structural recursions whose
fuel mirrors the loop bounds of the source.  Go maps are modelled as
association lists (Go map iteration order is unspecified; the association
list fixes one order, which no theorem below depends on).
-/

namespace Videoframe

/-- Go `FrameType`: `FrameTypeKey = 0`, `FrameTypeDelta = 1`. -/
inductive FrameType where
  | Key : FrameType
  | Delta : FrameType
deriving DecidableEq, Repr

/-- Go `RTPVideoHeader` (video_header.go).  The `-1` sentinels of
`PictureID`, `TemporalIdx`, `TL0PicIdx` are kept as `Int` values. -/
structure RTPVideoHeader where
  FrameType : FrameType
  IsFirstPacketInFrame : Bool
  IsLastPacketInFrame : Bool
  PictureID : Int
  TemporalIdx : Int
  TL0PicIdx : Int
deriving DecidableEq, Repr

/-- Go `BufferedPacket` (video_packet_buffer.go).  `VideoHeader` is a
pointer in Go, hence `Option` here. -/
structure BufferedPacket where
  SequenceNumber : Int
  Timestamp : Nat
  Payload : List Nat
  VideoHeader : Option RTPVideoHeader
  Continuous : Bool
  MarkerBit : Bool
deriving DecidableEq, Repr

/-- Go `VideoPacketBuffer`: a slot array of packet pointers.  The Go
struct stores `size` separately, always equal to `len(buffer)`. -/
structure VideoPacketBuffer where
  buffer : List (Option BufferedPacket)
deriving DecidableEq, Repr

namespace VideoPacketBuffer

/-- `b.size` in Go is the length of the slot array. -/
def size (b : VideoPacketBuffer) : Nat := b.buffer.length

/-- A fresh buffer of `n` empty slots (Go `make([]*BufferedPacket, size)`). -/
def empty (n : Nat) : VideoPacketBuffer := ⟨List.replicate n none⟩

/-- Go `seqNumToIndex`: `idx := seqNum % size; if idx < 0 { idx += size }`.
For positive `size` this is exactly `Int.emod` into `[0, size)`. -/
def seqNumToIndex (b : VideoPacketBuffer) (seqNum : Int) : Nat :=
  (seqNum % (b.size : Int)).toNat

/-- Read slot `i` (`b.buffer[index]`). -/
def getSlot (b : VideoPacketBuffer) (i : Nat) : Option BufferedPacket :=
  (b.buffer.get? i).getD none

/-- Write slot `i` (`b.buffer[index] = v`). -/
def setSlot (b : VideoPacketBuffer) (i : Nat) (v : Option BufferedPacket) :
    VideoPacketBuffer :=
  ⟨b.buffer.set i v⟩

end VideoPacketBuffer

/-- `pkt.VideoHeader != nil && pkt.VideoHeader.IsFirstPacketInFrame`. -/
def headerIsFirst (p : BufferedPacket) : Bool :=
  match p.VideoHeader with
  | some h => h.IsFirstPacketInFrame
  | none => false

/-- `pkt.VideoHeader != nil && pkt.VideoHeader.IsLastPacketInFrame`. -/
def headerIsLast (p : BufferedPacket) : Bool :=
  match p.VideoHeader with
  | some h => h.IsLastPacketInFrame
  | none => false

namespace VideoPacketBuffer

/-- Go `potentialNewFrame` (video_packet_buffer.go): slot must hold the
exact sequence number; a frame-start packet is always potential; otherwise
the previous slot must hold `seqNum-1`, with the same timestamp, already
marked continuous. -/
def potentialNewFrame (b : VideoPacketBuffer) (seqNum : Int) : Bool :=
  match b.getSlot (b.seqNumToIndex seqNum) with
  | none => false
  | some pkt =>
    if pkt.SequenceNumber ≠ seqNum then false
    else if headerIsFirst pkt then true
    else
      match b.getSlot (b.seqNumToIndex (seqNum - 1)) with
      | none => false
      | some prevPkt =>
        if prevPkt.SequenceNumber ≠ seqNum - 1 then false
        else if prevPkt.Timestamp ≠ pkt.Timestamp then false
        else prevPkt.Continuous

/-- The backward walk of Go `extractFrame`: starting at `cur = endSeqNum`,
fail on a missing or mismatched slot, stop at a frame-start packet,
otherwise decrement and abort once `endSeqNum - startSeqNum > size`.
The fuel only bounds the recursion; the walk always terminates through the
`endSeq - (cur-1) > size` test first (the caller passes fuel `size + 2`,
more than the `size + 1` iterations the test allows). -/
def findFrameStart (b : VideoPacketBuffer) (endSeq : Int) :
    Int → Nat → Option Int
  | cur, fuel =>
    match b.getSlot (b.seqNumToIndex cur) with
    | none => none
    | some pkt =>
      if pkt.SequenceNumber ≠ cur then none
      else if headerIsFirst pkt then some cur
      else
        match fuel with
        | 0 => none
        | fuel + 1 =>
          if endSeq - (cur - 1) > (b.size : Int) then none
          else findFrameStart b endSeq (cur - 1) fuel

/-- The forward verification pass of Go `extractFrame`: collect `n`
packets at `start, start+1, ...`, failing on a missing, mismatched or
non-continuous slot. -/
def collectRange (b : VideoPacketBuffer) : Int → Nat → Option (List BufferedPacket)
  | _, 0 => some []
  | start, n + 1 =>
    match b.getSlot (b.seqNumToIndex start) with
    | none => none
    | some pkt =>
      if pkt.SequenceNumber ≠ start then none
      else if !pkt.Continuous then none
      else
        match collectRange b (start + 1) n with
        | none => none
        | some rest => some (pkt :: rest)

/-- Go `extractFrame`: find the frame start by walking backwards, then
verify and collect every packet from the start to `endSeqNum`.  `none`
stands for Go's `nil` result. -/
def extractFrame (b : VideoPacketBuffer) (endSeqNum : Int) :
    Option (List BufferedPacket) :=
  match findFrameStart b endSeqNum endSeqNum (b.size + 2) with
  | none => none
  | some start => collectRange b start ((endSeqNum - start).toNat + 1)

/-- `b.buffer[index].Continuous = true` (in-place flag update). -/
def markContinuous (b : VideoPacketBuffer) (i : Nat) : VideoPacketBuffer :=
  match b.getSlot i with
  | none => b
  | some pkt => b.setSlot i (some { pkt with Continuous := true })

/-- Clearing the slots of an extracted frame
(`b.buffer[b.seqNumToIndex(pkt.SequenceNumber)] = nil` for each packet). -/
def clearFrameSlots (b : VideoPacketBuffer) (ps : List BufferedPacket) :
    VideoPacketBuffer :=
  ps.foldl (fun acc p => acc.setSlot (acc.seqNumToIndex p.SequenceNumber) none) b

/-- The scan loop of Go `findFrames`: for `i` in `[0, size)` evaluate
`potentialNewFrame(seqNum - size/2 + i)`, mark continuous packets, and on
a frame-ending packet extract a frame and clear its slots.  The fuel is
the remaining iteration count (`size - i` at entry). -/
def findFramesLoop (seqNum : Int) :
    VideoPacketBuffer → Nat → Nat →
    VideoPacketBuffer × List (List BufferedPacket)
  | b, _, 0 => (b, [])
  | b, i, fuel + 1 =>
    let currentSeq : Int := seqNum - (b.size : Int) / 2 + (i : Int)
    if !b.potentialNewFrame currentSeq then
      findFramesLoop seqNum b (i + 1) fuel
    else
      let index := b.seqNumToIndex currentSeq
      match b.getSlot index with
      | none => findFramesLoop seqNum b (i + 1) fuel
      | some _ =>
        let b1 := b.markContinuous index
        match b1.getSlot index with
        | none => findFramesLoop seqNum b1 (i + 1) fuel
        | some pkt1 =>
          if headerIsLast pkt1 then
            match b1.extractFrame currentSeq with
            | none => findFramesLoop seqNum b1 (i + 1) fuel
            | some fr =>
              if fr.isEmpty then findFramesLoop seqNum b1 (i + 1) fuel
              else
                let b2 := b1.clearFrameSlots fr
                let r := findFramesLoop seqNum b2 (i + 1) fuel
                (r.1, fr :: r.2)
          else
            findFramesLoop seqNum b1 (i + 1) fuel

/-- Go `findFrames`: scan a window of `size` slots centered on the
inserted sequence number. -/
def findFrames (b : VideoPacketBuffer) (seqNum : Int) :
    VideoPacketBuffer × List (List BufferedPacket) :=
  findFramesLoop seqNum b 0 b.size

/-- Go `InsertPacket`: drop exact duplicates, otherwise overwrite the
slot with the packet (with `Continuous = false`) and run `findFrames`.
The returned list is `InsertResult.Frames`. -/
def InsertPacket (b : VideoPacketBuffer) (pkt : BufferedPacket) :
    VideoPacketBuffer × List (List BufferedPacket) :=
  let index := b.seqNumToIndex pkt.SequenceNumber
  match b.getSlot index with
  | some existing =>
    if existing.SequenceNumber = pkt.SequenceNumber then (b, [])
    else
      let b1 := b.setSlot index (some { pkt with Continuous := false })
      findFrames b1 pkt.SequenceNumber
  | none =>
    let b1 := b.setSlot index (some { pkt with Continuous := false })
    findFrames b1 pkt.SequenceNumber

end VideoPacketBuffer

/-- Go `sequenceUnwrapper` (receiver_interceptor.go): unwraps 16-bit
sequence numbers to `int64`. -/
structure sequenceUnwrapper where
  lastSeq : Int
  started : Bool
deriving DecidableEq, Repr

namespace sequenceUnwrapper

/-- A fresh unwrapper (`&sequenceUnwrapper{}`). -/
def init : sequenceUnwrapper := ⟨0, false⟩

/-- Go `unwrap`: first input is stored and returned; later the raw
difference `int64(seq) - (lastSeq & 0xFFFF)` is shifted by `65536` when
it is `> 32768` or `< -32768`, and added to `lastSeq`.  Go's `& 0xFFFF`
on two's-complement `int64` is `Int.emod _ 65536`. -/
def unwrap (u : sequenceUnwrapper) (seq : Nat) : sequenceUnwrapper × Int :=
  if !u.started then
    (⟨(seq : Int), true⟩, (seq : Int))
  else
    let diff0 : Int := (seq : Int) - u.lastSeq % 65536
    let diff : Int :=
      if diff0 > 32768 then diff0 - 65536
      else if diff0 < -32768 then diff0 + 65536
      else diff0
    (⟨u.lastSeq + diff, true⟩, u.lastSeq + diff)

/-- Run the unwrapper over a list of inputs, collecting the outputs. -/
def runList (u : sequenceUnwrapper) : List Nat → List Int
  | [] => []
  | s :: rest =>
    let r := u.unwrap s
    r.2 :: runList r.1 rest

end sequenceUnwrapper

/-- Modelled from the claim's words (spec section 4.1), for comparison
with the source `sequenceUnwrapper.unwrap`: the signed difference is
normalized into the half-open interval `(-2^15, 2^15]`, so a raw
difference of exactly `-2^15` is shifted up to `+2^15`. -/
def claimedUnwrap (u : sequenceUnwrapper) (seq : Nat) : sequenceUnwrapper × Int :=
  if !u.started then
    (⟨(seq : Int), true⟩, (seq : Int))
  else
    let diff0 : Int := (seq : Int) - u.lastSeq % 65536
    let diff : Int :=
      if diff0 > 32768 then diff0 - 65536
      else if diff0 ≤ -32768 then diff0 + 65536
      else diff0
    (⟨u.lastSeq + diff, true⟩, u.lastSeq + diff)

/-- Run the claim's model over a list of inputs. -/
def claimedRunList (u : sequenceUnwrapper) : List Nat → List Int
  | [] => []
  | s :: rest =>
    let r := claimedUnwrap u s
    r.2 :: claimedRunList r.1 rest

/-- Go `pictureIDUnwrapper` (frame_id_only_ref_finder.go): 15-bit
picture-ID unwrapper. -/
structure pictureIDUnwrapper where
  lastUnwrapped : Int
  initialized : Bool
deriving DecidableEq, Repr

/-- `pictureIDModulus = 1 << 15`. -/
def pictureIDModulus : Int := 32768

namespace pictureIDUnwrapper

/-- A fresh unwrapper. -/
def init : pictureIDUnwrapper := ⟨0, false⟩

/-- Go `Unwrap`: negative input passes through as `-1`; otherwise the
input is masked to 15 bits and unwrapped with modulus `2^15`. -/
def Unwrap (u : pictureIDUnwrapper) (pictureID : Int) : pictureIDUnwrapper × Int :=
  if pictureID < 0 then (u, -1)
  else
    let pid := pictureID % pictureIDModulus
    if !u.initialized then
      (⟨pid, true⟩, pid)
    else
      let lastWrapped := u.lastUnwrapped % pictureIDModulus
      let diff0 := pid - lastWrapped
      let diff :=
        if diff0 > pictureIDModulus / 2 then diff0 - pictureIDModulus
        else if diff0 < -(pictureIDModulus / 2) then diff0 + pictureIDModulus
        else diff0
      (⟨u.lastUnwrapped + diff, true⟩, u.lastUnwrapped + diff)

end pictureIDUnwrapper

/-- Go `tl0PicIdxUnwrapper` (vp8_ref_finder.go): 8-bit TL0PICIDX
unwrapper. -/
structure tl0PicIdxUnwrapper where
  lastUnwrapped : Int
  initialized : Bool
deriving DecidableEq, Repr

/-- `tl0PicIdxModulus = 1 << 8`. -/
def tl0PicIdxModulus : Int := 256

namespace tl0PicIdxUnwrapper

/-- A fresh unwrapper. -/
def init : tl0PicIdxUnwrapper := ⟨0, false⟩

/-- Go `Unwrap` for TL0PICIDX, same scheme with modulus `2^8`. -/
def Unwrap (u : tl0PicIdxUnwrapper) (tl0PicIdx : Int) : tl0PicIdxUnwrapper × Int :=
  if tl0PicIdx < 0 then (u, -1)
  else
    let idx := tl0PicIdx % tl0PicIdxModulus
    if !u.initialized then
      (⟨idx, true⟩, idx)
    else
      let lastWrapped := u.lastUnwrapped % tl0PicIdxModulus
      let diff0 := idx - lastWrapped
      let diff :=
        if diff0 > tl0PicIdxModulus / 2 then diff0 - tl0PicIdxModulus
        else if diff0 < -(tl0PicIdxModulus / 2) then diff0 + tl0PicIdxModulus
        else diff0
      (⟨u.lastUnwrapped + diff, true⟩, u.lastUnwrapped + diff)

end tl0PicIdxUnwrapper

/-- The `References [5]int64` array of an `EncodedFrame`, as a record of
its five cells (all zero-initialised in Go). -/
structure References where
  r0 : Int
  r1 : Int
  r2 : Int
  r3 : Int
  r4 : Int
deriving DecidableEq, Repr

namespace References

/-- The all-zero array (Go zero value). -/
def zero : References := ⟨0, 0, 0, 0, 0⟩

/-- Read cell `i` of the array (callers only use `i < 5`). -/
def get (r : References) : Nat → Int
  | 0 => r.r0
  | 1 => r.r1
  | 2 => r.r2
  | 3 => r.r3
  | 4 => r.r4
  | _ => 0

/-- Write cell `i` of the array. -/
def set (r : References) : Nat → Int → References
  | 0, v => { r with r0 := v }
  | 1, v => { r with r1 := v }
  | 2, v => { r with r2 := v }
  | 3, v => { r with r3 := v }
  | 4, v => { r with r4 := v }
  | _, _ => r

end References

/-- Go `EncodedFrame` (frame.go), including the unwrapped sequence-number
fields used by the reference finders
(`FirstSeqNumUnwrapped`, `LastSeqNumUnwrapped`). -/
structure EncodedFrame where
  ID : Int
  FirstSeqNum : Nat
  LastSeqNum : Nat
  FirstSeqNumUnwrapped : Int
  LastSeqNumUnwrapped : Int
  Timestamp : Nat
  FrameType : FrameType
  Data : List Nat
  Width : Nat
  Height : Nat
  NumReferences : Nat
  References : References
deriving DecidableEq, Repr

/-- Go `VideoFrameAssembler` (frame.go): stateless except for the atomic
frame-ID counter. -/
structure VideoFrameAssembler where
  frameIDCounter : Int
deriving DecidableEq, Repr

namespace VideoFrameAssembler

/-- Go `NewVideoFrameAssembler` (counter starts at zero). -/
def init : VideoFrameAssembler := ⟨0⟩

/-- Go `AssembleFrame`: `nil` on an empty packet list; otherwise
concatenate the payloads in order, take `Timestamp` and (when the video
header is present) `FrameType` from the first packet, the wrapped 16-bit
sequence numbers from the first and last packets, and the next counter
value as the provisional frame ID.  The Go `uint16(x & 0xFFFF)` cast is
`(x % 65536).toNat` on `Int`. -/
def AssembleFrame (a : VideoFrameAssembler) (packets : List BufferedPacket) :
    VideoFrameAssembler × Option EncodedFrame :=
  match packets with
  | [] => (a, none)
  | firstPkt :: rest =>
    let lastPkt := (firstPkt :: rest).getLast (by simp)
    let data := ((firstPkt :: rest).map (·.Payload)).flatten
    let frameID := a.frameIDCounter
    let frame : EncodedFrame :=
      { ID := frameID
        FirstSeqNum := (firstPkt.SequenceNumber % 65536).toNat
        LastSeqNum := (lastPkt.SequenceNumber % 65536).toNat
        FirstSeqNumUnwrapped := 0
        LastSeqNumUnwrapped := 0
        Timestamp := firstPkt.Timestamp
        FrameType :=
          match firstPkt.VideoHeader with
          | some h => h.FrameType
          | none => FrameType.Key
        Data := data
        Width := 0
        Height := 0
        NumReferences := 0
        References := References.zero }
    (⟨a.frameIDCounter + 1⟩, some frame)

end VideoFrameAssembler

/-- `maxStashedFrames = 100` (ref_finder.go). -/
def maxStashedFrames : Nat := 100

/-- Go `stashedSeqNumFrame` (seq_num_only_ref_finder.go). -/
structure stashedSeqNumFrame where
  frame : EncodedFrame
  header : RTPVideoHeader
deriving DecidableEq, Repr

/-- Go `SeqNumOnlyRefFinder` state (seq_num_only_ref_finder.go). -/
structure SeqNumOnlyRefFinder where
  lastSeqNumGOP : Int
  lastFrameFirstSeqNum : Int
  lastFrameLastSeqNum : Int
  gotInitialFrame : Bool
  stashedFrames : List stashedSeqNumFrame
deriving DecidableEq, Repr

namespace SeqNumOnlyRefFinder

/-- Go `NewSeqNumOnlyRefFinder`. -/
def init : SeqNumOnlyRefFinder := ⟨-1, -1, -1, false, []⟩

/-- Insert into a list sorted by `FirstSeqNumUnwrapped` (the effect of
Go's `sort.Slice` after appending to an already sorted stash; ties keep
the older entry first, one of the orders the unstable Go sort allows). -/
def sortedInsert (s : stashedSeqNumFrame) :
    List stashedSeqNumFrame → List stashedSeqNumFrame
  | [] => [s]
  | t :: rest =>
    if s.frame.FirstSeqNumUnwrapped < t.frame.FirstSeqNumUnwrapped then
      s :: t :: rest
    else
      t :: sortedInsert s rest

/-- Sort a stash by `FirstSeqNumUnwrapped` (Go `sort.Slice`). -/
def sortStash : List stashedSeqNumFrame → List stashedSeqNumFrame
  | [] => []
  | s :: rest => sortedInsert s (sortStash rest)

/-- Go `stashFrame`: evict the oldest entry when the stash is full,
append the new entry, and re-sort by unwrapped first sequence number. -/
def stashFrame (f : SeqNumOnlyRefFinder) (frame : EncodedFrame)
    (header : RTPVideoHeader) : SeqNumOnlyRefFinder :=
  let pruned :=
    if maxStashedFrames ≤ f.stashedFrames.length then f.stashedFrames.drop 1
    else f.stashedFrames
  { f with stashedFrames := sortStash (pruned ++ [⟨frame, header⟩]) }

/-- One resolution step of Go `tryResolveStashedFrames`: the inner scan
returns the first stash index whose frame continues the last processed
frame (the `for i` loop with `break` on success). -/
def findResolvableIdx : List stashedSeqNumFrame → Int → Option Nat
  | [], _ => none
  | s :: rest, expected =>
    if s.frame.FirstSeqNumUnwrapped = expected then some 0
    else (findResolvableIdx rest expected).map (· + 1)

/-- The restart loop of Go `tryResolveStashedFrames`.  Each successful
pass removes one stash entry, so fuel `stash.length` is exactly enough. -/
def tryResolveLoop (f : SeqNumOnlyRefFinder) :
    Nat → SeqNumOnlyRefFinder × List EncodedFrame
  | 0 => (f, [])
  | fuel + 1 =>
    match findResolvableIdx f.stashedFrames (f.lastFrameLastSeqNum + 1) with
    | none => (f, [])
    | some i =>
      match f.stashedFrames.get? i with
      | none => (f, [])
      | some stashed =>
        let frame1 :=
          { stashed.frame with
            ID := stashed.frame.FirstSeqNumUnwrapped
            NumReferences := 1
            References := stashed.frame.References.set 0 f.lastFrameFirstSeqNum }
        let f1 :=
          { f with
            lastFrameFirstSeqNum := stashed.frame.FirstSeqNumUnwrapped
            lastFrameLastSeqNum := stashed.frame.LastSeqNumUnwrapped
            stashedFrames := f.stashedFrames.eraseIdx i }
        let r := tryResolveLoop f1 fuel
        (r.1, frame1 :: r.2)

/-- Go `tryResolveStashedFrames`. -/
def tryResolveStashedFrames (f : SeqNumOnlyRefFinder) :
    SeqNumOnlyRefFinder × List EncodedFrame :=
  tryResolveLoop f f.stashedFrames.length

/-- Go `clearStashedFramesBefore`: keep stashed frames whose unwrapped
first sequence number is at or after the given value. -/
def clearStashedFramesBefore (f : SeqNumOnlyRefFinder) (seqNum : Int) :
    SeqNumOnlyRefFinder :=
  { f with
    stashedFrames :=
      f.stashedFrames.filter (fun s => seqNum ≤ s.frame.FirstSeqNumUnwrapped) }

/-- Go `handleKeyframe`: set the frame ID, clear references, update the
GOP state, drop stale stashed frames, then resolve the stash. -/
def handleKeyframe (f : SeqNumOnlyRefFinder) (frame : EncodedFrame) :
    SeqNumOnlyRefFinder × List EncodedFrame :=
  let frame1 := { frame with ID := frame.FirstSeqNumUnwrapped, NumReferences := 0 }
  let f1 :=
    { f with
      lastSeqNumGOP := frame.FirstSeqNumUnwrapped
      lastFrameFirstSeqNum := frame.FirstSeqNumUnwrapped
      lastFrameLastSeqNum := frame.LastSeqNumUnwrapped
      gotInitialFrame := true }
  let f2 := clearStashedFramesBefore f1 frame.FirstSeqNumUnwrapped
  let r := tryResolveStashedFrames f2
  (r.1, frame1 :: r.2)

/-- Go `handleDeltaFrame`: stash before the initial key frame; emit a
continuous frame with one reference to the previous frame; silently drop
frames from an earlier GOP; stash everything else. -/
def handleDeltaFrame (f : SeqNumOnlyRefFinder) (frame : EncodedFrame)
    (header : RTPVideoHeader) : SeqNumOnlyRefFinder × List EncodedFrame :=
  if !f.gotInitialFrame then
    (stashFrame f frame header, [])
  else
    let expectedFirstSeqNum := f.lastFrameLastSeqNum + 1
    if frame.FirstSeqNumUnwrapped = expectedFirstSeqNum then
      let frame1 :=
        { frame with
          ID := frame.FirstSeqNumUnwrapped
          NumReferences := 1
          References := frame.References.set 0 f.lastFrameFirstSeqNum }
      let f1 :=
        { f with
          lastFrameFirstSeqNum := frame.FirstSeqNumUnwrapped
          lastFrameLastSeqNum := frame.LastSeqNumUnwrapped }
      let r := tryResolveStashedFrames f1
      (r.1, frame1 :: r.2)
    else if frame.FirstSeqNumUnwrapped < f.lastSeqNumGOP then
      (f, [])
    else
      (stashFrame f frame header, [])

/-- Go `ManageFrame` (the `frame == nil` guard of the source does not
arise in the value embedding). -/
def ManageFrame (f : SeqNumOnlyRefFinder) (frame : EncodedFrame)
    (header : RTPVideoHeader) : SeqNumOnlyRefFinder × List EncodedFrame :=
  match frame.FrameType with
  | FrameType.Key => handleKeyframe f frame
  | FrameType.Delta => handleDeltaFrame f frame header

end SeqNumOnlyRefFinder

/-- Go `FrameIdOnlyRefFinder` (frame_id_only_ref_finder.go). -/
structure FrameIdOnlyRefFinder where
  unwrapper : pictureIDUnwrapper
deriving DecidableEq, Repr

namespace FrameIdOnlyRefFinder

/-- Go `NewFrameIdOnlyRefFinder`. -/
def init : FrameIdOnlyRefFinder := ⟨pictureIDUnwrapper.init⟩

/-- Go `ManageFrame`: no picture ID means the frame passes through
unchanged; otherwise the unwrapped picture ID (when non-negative) becomes
the frame ID, a key frame gets no references and a delta frame one
reference to `ID - 1`. -/
def ManageFrame (f : FrameIdOnlyRefFinder) (frame : EncodedFrame)
    (header : RTPVideoHeader) : FrameIdOnlyRefFinder × List EncodedFrame :=
  if header.PictureID = -1 then
    (f, [frame])
  else
    let r := f.unwrapper.Unwrap header.PictureID
    let f1 : FrameIdOnlyRefFinder := ⟨r.1⟩
    let unwrappedPID := r.2
    if unwrappedPID < 0 then
      (f1, [])
    else
      let frame1 := { frame with ID := unwrappedPID }
      let frame2 :=
        match frame1.FrameType with
        | FrameType.Key => { frame1 with NumReferences := 0 }
        | FrameType.Delta =>
          { frame1 with
            NumReferences := 1
            References := frame1.References.set 0 (frame1.ID - 1) }
      (f1, [frame2])

end FrameIdOnlyRefFinder

/-- `maxTemporalLayers = 4` (vp8_ref_finder.go). -/
def maxTemporalLayers : Nat := 4

/-- The `[maxTemporalLayers]int64` per-TL0 layer array of the VP8
reference finder; cell `t` stores `pictureID + 1` for the latest frame of
temporal layer `t` (`0` = unset).  Go's zero value is the all-zero
array. -/
structure LayerArray where
  l0 : Int
  l1 : Int
  l2 : Int
  l3 : Int
deriving DecidableEq, Repr

namespace LayerArray

/-- The all-zero array (Go map zero value). -/
def zero : LayerArray := ⟨0, 0, 0, 0⟩

/-- Read cell `t` (callers only use `t < 4`). -/
def get (a : LayerArray) : Nat → Int
  | 0 => a.l0
  | 1 => a.l1
  | 2 => a.l2
  | 3 => a.l3
  | _ => 0

/-- Write cell `t`. -/
def set (a : LayerArray) : Nat → Int → LayerArray
  | 0, v => { a with l0 := v }
  | 1, v => { a with l1 := v }
  | 2, v => { a with l2 := v }
  | 3, v => { a with l3 := v }
  | _, _ => a

/-- The Go loop `for t := hi; t >= 0; t-- { if info[t] != 0 { take } }`:
first non-zero cell scanning down from `hi`. -/
def scanDown (a : LayerArray) : Nat → Option Int
  | 0 => if a.get 0 ≠ 0 then some (a.get 0) else none
  | t + 1 => if a.get (t + 1) ≠ 0 then some (a.get (t + 1)) else scanDown a t

/-- The same scan-down loop with Go's signed counter: when the start
`hi` is negative the condition `t >= 0` fails at once and no iteration
runs. -/
def scanDownFrom (a : LayerArray) (hi : Int) : Option Int :=
  if hi < 0 then none else a.scanDown hi.toNat

/-- Write cell `t` of the `[maxTemporalLayers]int64` array at Go's
signed index; `none` models the runtime panic (`index out of range`)
on an index outside `0..3`. -/
def setAt (a : LayerArray) (t : Int) (v : Int) : Option LayerArray :=
  if t = 0 then some { a with l0 := v }
  else if t = 1 then some { a with l1 := v }
  else if t = 2 then some { a with l2 := v }
  else if t = 3 then some { a with l3 := v }
  else none

end LayerArray

/-- The `map[int64][4]int64` layer-info map, as an association list
(insertion ordered; Go map iteration order is unspecified and no theorem
below depends on the order chosen here). -/
abbrev LayerInfoMap := List (Int × LayerArray)

namespace LayerInfoMap

/-- Map read with `ok` flag (`layerInfo[tl0]`). -/
def lookup (m : LayerInfoMap) (k : Int) : Option LayerArray :=
  List.lookup k m

/-- Map read without `ok` flag: a missing key yields the zero array, as
in Go. -/
def getD (m : LayerInfoMap) (k : Int) : LayerArray :=
  (lookup m k).getD LayerArray.zero

/-- Map write (`layerInfo[tl0] = info`). -/
def set (m : LayerInfoMap) (k : Int) (v : LayerArray) : LayerInfoMap :=
  if (lookup m k).isSome then
    m.map (fun kv => if kv.1 = k then (k, v) else kv)
  else
    m ++ [(k, v)]

/-- Keep only the entries satisfying `p` (the effect of Go's
`delete` inside `for tl0 := range f.layerInfo`). -/
def filterKeys (m : LayerInfoMap) (p : Int → Bool) : LayerInfoMap :=
  m.filter (fun kv => p kv.1)

/-- The Go loop `for _, info := range f.layerInfo` looking for any entry
with a non-zero base-layer cell. -/
def anyBaseLayer : LayerInfoMap → Option Int
  | [] => none
  | kv :: rest =>
    if kv.2.get 0 ≠ 0 then some (kv.2.get 0) else anyBaseLayer rest

end LayerInfoMap

/-- Go `stashedVP8Frame`: the stashed frame together with its header and
the unwrapped picture ID and TL0PICIDX computed at stash time. -/
structure stashedVP8Frame where
  frame : EncodedFrame
  header : RTPVideoHeader
  unwrappedPID : Int
  unwrappedTL0 : Int
deriving DecidableEq, Repr

/-- Go `VP8RefFinder` state (vp8_ref_finder.go). -/
structure VP8RefFinder where
  pidUnwrapper : pictureIDUnwrapper
  tl0Unwrapper : tl0PicIdxUnwrapper
  layerInfo : LayerInfoMap
  lastPictureID : Int
  gotInitialFrame : Bool
  stashedFrames : List stashedVP8Frame
deriving DecidableEq, Repr

namespace VP8RefFinder

/-- Go `NewVP8RefFinder`. -/
def init : VP8RefFinder :=
  ⟨pictureIDUnwrapper.init, tl0PicIdxUnwrapper.init, [], -1, false, []⟩

/-- `tid := int(header.TemporalIdx); if tid >= maxTemporalLayers { tid =
maxTemporalLayers - 1 }`: the clamp is from above only, so a negative
`TemporalIdx` other than the `-1` sentinel (excluded by the caller)
stays negative and in particular fails the `tid == 0` key-path test. -/
def clampTid (temporalIdx : Int) : Int :=
  if temporalIdx ≥ (maxTemporalLayers : Int) then (maxTemporalLayers : Int) - 1
  else temporalIdx

/-- Go `getReferences`: base-layer frames reference the previous
base-layer frame; enhancement-layer frames scan lower layers of the
current TL0 window, then the previous window, then any known base
layer. -/
def getReferences (f : VP8RefFinder) (tl0 prevTL0 : Int) (tid : Int) :
    Option (List Int) :=
  if tid = 0 then
    match f.layerInfo.lookup prevTL0 with
    | none => none
    | some info =>
      if info.get 0 = 0 then none else some [info.get 0 - 1]
  else
    let fromCurrent :=
      match f.layerInfo.lookup tl0 with
      | none => none
      | some info => info.scanDownFrom (tid - 1)
    match fromCurrent with
    | some v => some [v - 1]
    | none =>
      let fromPrev :=
        match f.layerInfo.lookup prevTL0 with
        | none => none
        | some info => info.scanDownFrom tid
      match fromPrev with
      | some v => some [v - 1]
      | none =>
        match f.layerInfo.anyBaseLayer with
        | some v => some [v - 1]
        | none => none

/-- Go `initLayerInfo`: a fresh window `[pid+1, 0, 0, 0]`. -/
def initLayerInfo (f : VP8RefFinder) (tl0 pid : Int) : VP8RefFinder :=
  { f with layerInfo := f.layerInfo.set tl0 ⟨pid + 1, 0, 0, 0⟩ }

/-- Go `updateLayerInfo`: store `pid + 1` at layer `tid` of window
`tl0` (reading the zero array when the window is missing, as Go does);
`none` models the panic of the array write `info[tid] = pid + 1` at a
negative `tid`. -/
def updateLayerInfo (f : VP8RefFinder) (tl0 tid pid : Int) :
    Option VP8RefFinder :=
  match (f.layerInfo.getD tl0).setAt tid (pid + 1) with
  | none => none
  | some info => some { f with layerInfo := f.layerInfo.set tl0 info }

/-- Go `clearOldState`: drop layer windows more than 10 TL0 steps old and
stashed frames whose unwrapped PID is 100 or more behind
`lastPictureID`. -/
def clearOldState (f : VP8RefFinder) (currentTL0 : Int) : VP8RefFinder :=
  { f with
    layerInfo := f.layerInfo.filterKeys (fun tl0 => currentTL0 - tl0 ≤ 10)
    stashedFrames :=
      f.stashedFrames.filter (fun s => f.lastPictureID - s.unwrappedPID < 100) }

/-- Insert into a list sorted by `unwrappedPID` (the effect of Go's
`sort.Slice` after appending to an already sorted stash). -/
def sortedInsertVP8 (s : stashedVP8Frame) :
    List stashedVP8Frame → List stashedVP8Frame
  | [] => [s]
  | t :: rest =>
    if s.unwrappedPID < t.unwrappedPID then s :: t :: rest
    else t :: sortedInsertVP8 s rest

/-- Sort a VP8 stash by unwrapped picture ID (Go `sort.Slice`). -/
def sortStashVP8 : List stashedVP8Frame → List stashedVP8Frame
  | [] => []
  | s :: rest => sortedInsertVP8 s (sortStashVP8 rest)

/-- Go `stashFrame` of the VP8 finder: evict the oldest entry on
overflow, append, and sort by unwrapped picture ID. -/
def stashFrame (f : VP8RefFinder) (frame : EncodedFrame)
    (header : RTPVideoHeader) (unwrappedPID unwrappedTL0 : Int) : VP8RefFinder :=
  let pruned :=
    if maxStashedFrames ≤ f.stashedFrames.length then f.stashedFrames.drop 1
    else f.stashedFrames
  { f with
    stashedFrames :=
      sortStashVP8 (pruned ++ [⟨frame, header, unwrappedPID, unwrappedTL0⟩]) }

/-- The loop body writing `refs` into the `[5]int64` references array
(`for i, ref := range refs { if i < 5 { frame.References[i] = ref } }`). -/
def writeRefs (r : References) (refs : List Int) : References :=
  (refs.enum.foldl (fun acc p => if p.1 < 5 then acc.set p.1 p.2 else acc) r)

/-- Go `tryProcessStashedFrame`: retry reference resolution with the
stored pre-computed unwrapped values; on success set the frame fields and
update the layer map and `lastPictureID`.  An unresolved frame yields
`some (f, [])`; `none` models the panic of the layer write at a negative
stashed temporal index. -/
def tryProcessStashedFrame (f : VP8RefFinder) (stashed : stashedVP8Frame) :
    Option (VP8RefFinder × List EncodedFrame) :=
  if stashed.header.TemporalIdx = -1 ∨ stashed.header.TL0PicIdx = -1 ∨
      stashed.header.PictureID = -1 then
    some (f, [])
  else
    let unwrappedPID := stashed.unwrappedPID
    let unwrappedTL0 := stashed.unwrappedTL0
    let tid := clampTid stashed.header.TemporalIdx
    let prevTL0 := if tid = 0 then unwrappedTL0 - 1 else unwrappedTL0
    match f.getReferences unwrappedTL0 prevTL0 tid with
    | none => some (f, [])
    | some refs =>
      let frame1 :=
        { stashed.frame with
          ID := unwrappedPID
          NumReferences := refs.length
          References := writeRefs stashed.frame.References refs }
      match f.updateLayerInfo unwrappedTL0 tid unwrappedPID with
      | none => none
      | some f1 =>
        let f2 := { f1 with lastPictureID := unwrappedPID }
        some (f2, [frame1])

/-- The inner scan of Go `tryResolveStashedFrames`: first stash entry
that `tryProcessStashedFrame` resolves, with its index, the updated
finder and the produced frames.  The inner `none` means no entry
resolved; the outer `none` propagates a panic while processing an
entry. -/
def scanStash (f : VP8RefFinder) :
    List stashedVP8Frame → Nat →
    Option (Option (Nat × VP8RefFinder × List EncodedFrame))
  | [], _ => some none
  | s :: rest, i =>
    match f.tryProcessStashedFrame s with
    | none => none
    | some r =>
      if r.2.isEmpty then scanStash f rest (i + 1)
      else some (some (i, r.1, r.2))

/-- The restart loop of Go `tryResolveStashedFrames` for the VP8 finder;
each success removes one stash entry, so fuel `stash.length` suffices.
`none` propagates a panic. -/
def tryResolveLoop (f : VP8RefFinder) :
    Nat → Option (VP8RefFinder × List EncodedFrame)
  | 0 => some (f, [])
  | fuel + 1 =>
    match scanStash f f.stashedFrames 0 with
    | none => none
    | some none => some (f, [])
    | some (some (i, f1, frames)) =>
      let f2 := { f1 with stashedFrames := f1.stashedFrames.eraseIdx i }
      match tryResolveLoop f2 fuel with
      | none => none
      | some r => some (r.1, frames ++ r.2)

/-- Go `tryResolveStashedFrames` of the VP8 finder (`none` propagates a
panic). -/
def tryResolveStashedFrames (f : VP8RefFinder) :
    Option (VP8RefFinder × List EncodedFrame) :=
  tryResolveLoop f f.stashedFrames.length

/-- Go `handleKeyframe` of the VP8 finder: no references, fresh layer
window, advance `lastPictureID`, set `gotInitialFrame`, purge old state,
emit the key frame followed by a stash-resolution pass (`none`
propagates a panic of that pass). -/
def handleKeyframe (f : VP8RefFinder) (frame : EncodedFrame)
    (pid tl0 : Int) : Option (VP8RefFinder × List EncodedFrame) :=
  let frame1 := { frame with NumReferences := 0 }
  let f1 := f.initLayerInfo tl0 pid
  let f2 := { f1 with lastPictureID := pid, gotInitialFrame := true }
  let f3 := f2.clearOldState tl0
  match f3.tryResolveStashedFrames with
  | none => none
  | some r => some (r.1, frame1 :: r.2)

/-- Go `handleDeltaFrame` of the VP8 finder: stash before the initial
key frame or on missing dependencies; otherwise write the references,
update the layer window and `lastPictureID`, emit the frame and run a
stash-resolution pass.  `none` models a panic (layer write at a negative
`tid`, or a panic of the resolution pass). -/
def handleDeltaFrame (f : VP8RefFinder) (frame : EncodedFrame)
    (header : RTPVideoHeader) (pid tl0 tid : Int) :
    Option (VP8RefFinder × List EncodedFrame) :=
  if !f.gotInitialFrame then
    some (f.stashFrame frame header pid tl0, [])
  else
    let prevTL0 := if tid = 0 then tl0 - 1 else tl0
    match f.getReferences tl0 prevTL0 tid with
    | none => some (f.stashFrame frame header pid tl0, [])
    | some refs =>
      let frame1 :=
        { frame with
          NumReferences := refs.length
          References := writeRefs frame.References refs }
      match f.updateLayerInfo tl0 tid pid with
      | none => none
      | some f1 =>
        let f2 := { f1 with lastPictureID := pid }
        match f2.tryResolveStashedFrames with
        | none => none
        | some r => some (r.1, frame1 :: r.2)

/-- Go `fallbackManageFrame`: with a picture ID behave like the
FrameIdOnly finder; without one fill in the default references from the
provisional ID. -/
def fallbackManageFrame (f : VP8RefFinder) (frame : EncodedFrame)
    (header : RTPVideoHeader) : VP8RefFinder × List EncodedFrame :=
  if header.PictureID ≠ -1 then
    let r := f.pidUnwrapper.Unwrap header.PictureID
    let f1 := { f with pidUnwrapper := r.1 }
    let frame1 := { frame with ID := r.2 }
    let frame2 :=
      match frame1.FrameType with
      | FrameType.Key => { frame1 with NumReferences := 0 }
      | FrameType.Delta =>
        { frame1 with
          NumReferences := 1
          References := frame1.References.set 0 (frame1.ID - 1) }
    (f1, [frame2])
  else
    let frame2 :=
      match frame.FrameType with
      | FrameType.Key => { frame with NumReferences := 0 }
      | FrameType.Delta =>
        { frame with
          NumReferences := 1
          References := frame.References.set 0 (frame.ID - 1) }
    (f, [frame2])

/-- Go `ManageFrame` of the VP8 finder: fall back on incomplete temporal
information; otherwise unwrap the picture ID and TL0PICIDX (advancing the
unwrappers), set the frame ID, clamp the temporal index from above, and
dispatch: only a key frame with clamped temporal index 0 takes the
key-frame path, everything else takes the delta-frame path.  `none`
models a runtime panic on the taken path. -/
def ManageFrame (f : VP8RefFinder) (frame : EncodedFrame)
    (header : RTPVideoHeader) : Option (VP8RefFinder × List EncodedFrame) :=
  if header.TemporalIdx = -1 ∨ header.TL0PicIdx = -1 ∨ header.PictureID = -1 then
    some (fallbackManageFrame f frame header)
  else
    let rp := f.pidUnwrapper.Unwrap header.PictureID
    let rt := f.tl0Unwrapper.Unwrap header.TL0PicIdx
    let f1 := { f with pidUnwrapper := rp.1, tl0Unwrapper := rt.1 }
    let unwrappedPID := rp.2
    let unwrappedTL0 := rt.2
    if unwrappedPID < 0 ∨ unwrappedTL0 < 0 then
      some (f1, [])
    else
      let frame1 := { frame with ID := unwrappedPID }
      let tid := clampTid header.TemporalIdx
      if frame1.FrameType = FrameType.Key ∧ tid = 0 then
        f1.handleKeyframe frame1 unwrappedPID unwrappedTL0
      else
        f1.handleDeltaFrame frame1 header unwrappedPID unwrappedTL0 tid

end VP8RefFinder

/-- Slot `b.seqNumToIndex s` holds a packet whose sequence number is
exactly `s` (the packet named `s` is present in the buffer). -/
def holdsSeq (b : VideoPacketBuffer) (s : Int) : Prop :=
  ∃ p, b.getSlot (b.seqNumToIndex s) = some p ∧ p.SequenceNumber = s

/-- `fr` is a contiguous ascending run of packets with sequence numbers
`start, start+1, ..., last`. -/
def frameRun (fr : List BufferedPacket) (start last : Int) : Prop :=
  start ≤ last ∧ fr.length = (last - start).toNat + 1 ∧
    ∀ k pkt, fr.get? k = some pkt → pkt.SequenceNumber = start + (k : Int)

/-- The first packet of `fr` starts a frame. -/
def frHeadIsFirst (fr : List BufferedPacket) : Prop :=
  ∀ pkt, fr.head? = some pkt → headerIsFirst pkt = true

/-- The last packet of `fr` ends a frame. -/
def frLastIsLast (fr : List BufferedPacket) : Prop :=
  ∀ pkt, fr.getLast? = some pkt → headerIsLast pkt = true

/-- The sequence numbers of the packets of a frame. -/
def seqsOf (fr : List BufferedPacket) : List Int :=
  fr.map (·.SequenceNumber)

/-- Sequence number of the last packet of a frame (`0` for an empty
list, which never occurs for emitted frames). -/
def frLastSeq (fr : List BufferedPacket) : Int :=
  ((fr.getLast?).map (·.SequenceNumber)).getD 0

/-- Sequence number of the first packet of a frame. -/
def frHeadSeq (fr : List BufferedPacket) : Int :=
  ((fr.head?).map (·.SequenceNumber)).getD 0

/-- Invariant of the `findFrames` scan loop, relating the input buffer
`b` and loop position `i` to the final buffer and emitted frames `r`:
the size is preserved; a present packet either stays present or leaves in
an emitted frame; an absent sequence number never appears in an emitted
frame; every emitted frame is a contiguous ascending run ending at a
window position at or after `i`, starting with a frame-start packet and
ending with a frame-end packet; and the frames are emitted in strictly
ascending sequence-number order. -/
def LoopSpec (seqNum : Int) (b : VideoPacketBuffer) (i : Nat)
    (r : VideoPacketBuffer × List (List BufferedPacket)) : Prop :=
  r.1.size = b.size ∧
  (∀ s, holdsSeq b s → holdsSeq r.1 s ∨ ∃ fr ∈ r.2, s ∈ seqsOf fr) ∧
  (∀ s, ¬ holdsSeq b s → ∀ fr ∈ r.2, s ∉ seqsOf fr) ∧
  (∀ fr ∈ r.2, ∃ start j, i ≤ j ∧
      frameRun fr start (seqNum - (b.size : Int) / 2 + (j : Int)) ∧
      frHeadIsFirst fr ∧ frLastIsLast fr) ∧
  List.Pairwise (fun f g => frLastSeq f < frHeadSeq g) r.2

/-- The reference property of the spec's invariant 4: a key frame has no
references and a delta frame only references strictly lower frame IDs. -/
def RefInvariant (g : EncodedFrame) : Prop :=
  (g.FrameType = FrameType.Key → g.NumReferences = 0) ∧
  (g.FrameType = FrameType.Delta →
    ∀ i, i < g.NumReferences → g.References.get i < g.ID)

/-- State invariant of the SeqNumOnly reference finder maintained by its
processing: the last processed frame's first sequence number does not
exceed its last, and every stashed frame is a delta frame whose first
sequence number does not exceed its last. -/
def SeqNumInv (f : SeqNumOnlyRefFinder) : Prop :=
  f.lastFrameFirstSeqNum ≤ f.lastFrameLastSeqNum ∧
  ∀ s ∈ f.stashedFrames, s.frame.FrameType = FrameType.Delta ∧
    s.frame.FirstSeqNumUnwrapped ≤ s.frame.LastSeqNumUnwrapped

/-! Concrete packets and buffer states used to evaluate the buffer on
explicit inputs.  All of them use the smallest valid buffer size, 64. -/

/-- A header for a sequence-number-only VP8 delta stream (no picture ID
and no temporal-layer information). -/
def exHeader (fi la : Bool) : RTPVideoHeader :=
  ⟨FrameType.Delta, fi, la, -1, -1, -1⟩

/-- A buffered packet with the given sequence number, timestamp and
frame-boundary flags, as built by the receiver (`Continuous = false`). -/
def exPacket (seq : Int) (ts : Nat) (fi la : Bool) : BufferedPacket :=
  ⟨seq, ts, [], some (exHeader fi la), false, la⟩

/-- The empty 64-slot buffer. -/
def exBuf0 : VideoPacketBuffer := VideoPacketBuffer.empty 64

/-- `exPacket` after the scan marked it continuous. -/
def exPacketC (seq : Int) (ts : Nat) (fi la : Bool) : BufferedPacket :=
  ⟨seq, ts, [], some (exHeader fi la), true, la⟩

/-- Buffer after inserting packet 100 (ts 1, frame start): slot 36 holds
it, marked continuous. -/
def exBufA : VideoPacketBuffer :=
  exBuf0.setSlot 36 (some (exPacketC 100 1 true false))

/-- Buffer after also inserting packet 101 (ts 1): slot 37, continuous. -/
def exBufB : VideoPacketBuffer :=
  exBufA.setSlot 37 (some (exPacketC 101 1 false false))

/-- Buffer after also inserting packet 164 (ts 9): it maps to slot 36
(164 mod 64 = 36) and overwrites packet 100; packet 101 keeps its
`Continuous = true` flag. -/
def exBufX : VideoPacketBuffer :=
  exBufB.setSlot 36 (some (exPacket 164 9 false false))

/-- Buffer after also inserting packet 100 again, now with timestamp 2:
it overwrites packet 164 and is marked continuous as a frame start. -/
def exBufD : VideoPacketBuffer :=
  exBufX.setSlot 36 (some (exPacketC 100 2 true false))

/-- Buffer holding only packet 164 in slot 36 (not continuous). -/
def exBuf164 : VideoPacketBuffer :=
  exBuf0.setSlot 36 (some (exPacket 164 9 false false))

/-- The gap-fill buffer state: packets 0..33 of one frame (timestamp 1,
frame start at 0, frame end at 33) are all present; packets 0..31 carry
`Continuous = true` while 32 and 33 do not.  This state is reached from
the empty buffer by inserting packets 1..33 in order (no packet is
marked, since the frame start is missing) and then packet 0, whose scan
window `[-32, 31]` marks packets 0..31 but does not reach 32 and 33 —
so the complete frame sits in the buffer unemitted. -/
def exBufC2 : VideoPacketBuffer :=
  ⟨[some (exPacketC 0 1 true false),
   some (exPacketC 1 1 false false),
   some (exPacketC 2 1 false false),
   some (exPacketC 3 1 false false),
   some (exPacketC 4 1 false false),
   some (exPacketC 5 1 false false),
   some (exPacketC 6 1 false false),
   some (exPacketC 7 1 false false),
   some (exPacketC 8 1 false false),
   some (exPacketC 9 1 false false),
   some (exPacketC 10 1 false false),
   some (exPacketC 11 1 false false),
   some (exPacketC 12 1 false false),
   some (exPacketC 13 1 false false),
   some (exPacketC 14 1 false false),
   some (exPacketC 15 1 false false),
   some (exPacketC 16 1 false false),
   some (exPacketC 17 1 false false),
   some (exPacketC 18 1 false false),
   some (exPacketC 19 1 false false),
   some (exPacketC 20 1 false false),
   some (exPacketC 21 1 false false),
   some (exPacketC 22 1 false false),
   some (exPacketC 23 1 false false),
   some (exPacketC 24 1 false false),
   some (exPacketC 25 1 false false),
   some (exPacketC 26 1 false false),
   some (exPacketC 27 1 false false),
   some (exPacketC 28 1 false false),
   some (exPacketC 29 1 false false),
   some (exPacketC 30 1 false false),
   some (exPacketC 31 1 false false),
   some (exPacket 32 1 false false),
   some (exPacket 33 1 false true),
   none,
   none,
   none,
   none,
   none,
   none,
   none,
   none,
   none,
   none,
   none,
   none,
   none,
   none,
   none,
   none,
   none,
   none,
   none,
   none,
   none,
   none,
   none,
   none,
   none,
   none,
   none,
   none,
   none,
   none]⟩

namespace VideoPacketBuffer

theorem size_setSlot (b : VideoPacketBuffer) (i : Nat) (v : Option BufferedPacket) :
    (b.setSlot i v).size = b.size := by
  simp [setSlot, size]

theorem size_markContinuous (b : VideoPacketBuffer) (i : Nat) :
    (b.markContinuous i).size = b.size := by
  unfold markContinuous
  cases h : b.getSlot i <;> simp [size_setSlot]

theorem size_clearFrameSlots (b : VideoPacketBuffer) (ps : List BufferedPacket) :
    (b.clearFrameSlots ps).size = b.size := by
  induction ps generalizing b with
  | nil => rfl
  | cons p rest ih =>
    simp only [clearFrameSlots, List.foldl_cons] at *
    rw [ih]
    exact size_setSlot ..

theorem seqNumToIndex_eq_of_size_eq {b b' : VideoPacketBuffer}
    (h : b'.size = b.size) (s : Int) : b'.seqNumToIndex s = b.seqNumToIndex s := by
  simp [seqNumToIndex, h]

theorem getSlot_setSlot_self (b : VideoPacketBuffer) {i : Nat}
    (h : i < b.size) (v : Option BufferedPacket) :
    (b.setSlot i v).getSlot i = v := by
  simp only [setSlot, getSlot, List.get?_eq_getElem?]
  rw [List.getElem?_set_self]
  · rfl
  · exact h

theorem getSlot_setSlot_other (b : VideoPacketBuffer) {i j : Nat}
    (h : i ≠ j) (v : Option BufferedPacket) :
    (b.setSlot i v).getSlot j = b.getSlot j := by
  simp only [setSlot, getSlot, List.get?_eq_getElem?]
  rw [List.getElem?_set_ne h]

theorem setSlot_of_size_le (b : VideoPacketBuffer) {i : Nat}
    (h : b.size ≤ i) (v : Option BufferedPacket) : b.setSlot i v = b := by
  simp only [setSlot]
  rw [List.set_eq_of_length_le h]

theorem lt_size_of_getSlot_eq_some {b : VideoPacketBuffer} {i : Nat}
    {p : BufferedPacket} (h : b.getSlot i = some p) : i < b.size := by
  by_contra hge
  push_neg at hge
  simp only [getSlot, size] at h hge
  rw [List.get?_eq_none.2 hge] at h
  simp at h

theorem holdsSeq_markContinuous (b : VideoPacketBuffer) (i : Nat) (s : Int) :
    holdsSeq (b.markContinuous i) s ↔ holdsSeq b s := by
  unfold markContinuous
  cases h : b.getSlot i with
  | none => rfl
  | some pkt =>
    have hi : i < b.size := lt_size_of_getSlot_eq_some h
    have hsize : (b.setSlot i (some { pkt with Continuous := true })).size = b.size :=
      size_setSlot ..
    constructor
    · rintro ⟨q, hq, hqs⟩
      rw [seqNumToIndex_eq_of_size_eq hsize] at hq
      by_cases hij : i = b.seqNumToIndex s
      · rw [← hij, getSlot_setSlot_self b hi] at hq
        exact ⟨pkt, by rw [hij] at h; exact h, by cases hq; exact hqs⟩
      · rw [getSlot_setSlot_other b hij] at hq
        exact ⟨q, hq, hqs⟩
    · rintro ⟨q, hq, hqs⟩
      by_cases hij : i = b.seqNumToIndex s
      · refine ⟨{ pkt with Continuous := true }, ?_, ?_⟩
        · rw [seqNumToIndex_eq_of_size_eq hsize, ← hij, getSlot_setSlot_self b hi]
        · rw [← hij] at hq
          rw [h] at hq
          cases hq
          exact hqs
      · refine ⟨q, ?_, hqs⟩
        rw [seqNumToIndex_eq_of_size_eq hsize, getSlot_setSlot_other b hij]
        exact hq

theorem getSlot_clearFrameSlots_of_untouched (b : VideoPacketBuffer)
    (ps : List BufferedPacket) {j : Nat}
    (h : ∀ p ∈ ps, b.seqNumToIndex p.SequenceNumber ≠ j) :
    (b.clearFrameSlots ps).getSlot j = b.getSlot j := by
  induction ps generalizing b with
  | nil => rfl
  | cons p rest ih =>
    simp only [clearFrameSlots, List.foldl_cons] at *
    have hb1 : (b.setSlot (b.seqNumToIndex p.SequenceNumber) none).getSlot j
        = b.getSlot j :=
      getSlot_setSlot_other b (h p (by simp)) none
    rw [← hb1]
    have hsz : (b.setSlot (b.seqNumToIndex p.SequenceNumber) none).size = b.size :=
      size_setSlot ..
    exact ih (b.setSlot (b.seqNumToIndex p.SequenceNumber) none)
      (fun q hq => by rw [seqNumToIndex_eq_of_size_eq hsz]; exact h q (by simp [hq]))

theorem getSlot_clearFrameSlots_of_none (b : VideoPacketBuffer)
    (ps : List BufferedPacket) {j : Nat} (h0 : b.getSlot j = none) :
    (b.clearFrameSlots ps).getSlot j = none := by
  induction ps generalizing b with
  | nil => exact h0
  | cons p rest ih =>
    simp only [clearFrameSlots, List.foldl_cons] at *
    refine ih (b.setSlot (b.seqNumToIndex p.SequenceNumber) none) ?_
    by_cases hij : b.seqNumToIndex p.SequenceNumber = j
    · by_cases hlt : j < b.size
      · rw [hij]
        exact getSlot_setSlot_self b (hij ▸ hlt) none
      · rw [setSlot_of_size_le b (by omega)]
        exact h0
    · rw [getSlot_setSlot_other b hij]
      exact h0

theorem getSlot_clearFrameSlots_of_mem (b : VideoPacketBuffer)
    {ps : List BufferedPacket} {p : BufferedPacket} (hp : p ∈ ps)
    (hlt : b.seqNumToIndex p.SequenceNumber < b.size) :
    (b.clearFrameSlots ps).getSlot (b.seqNumToIndex p.SequenceNumber) = none := by
  induction ps generalizing b with
  | nil => cases hp
  | cons q rest ih =>
    simp only [clearFrameSlots, List.foldl_cons] at *
    rcases List.mem_cons.1 hp with hpq | hpr
    · subst hpq
      exact getSlot_clearFrameSlots_of_none _ rest
        (getSlot_setSlot_self b hlt none)
    · have hsz : (b.setSlot (b.seqNumToIndex q.SequenceNumber) none).size = b.size :=
        size_setSlot ..
    -- index and size are stable under `setSlot`, so recurse on the updated buffer
      have := ih (b.setSlot (b.seqNumToIndex q.SequenceNumber) none) hpr
        (by rw [seqNumToIndex_eq_of_size_eq hsz, hsz]; exact hlt)
      rw [seqNumToIndex_eq_of_size_eq hsz] at this
      exact this

theorem collectRange_spec (b : VideoPacketBuffer) :
    ∀ (n : Nat) (start : Int) (ps : List BufferedPacket),
    b.collectRange start n = some ps →
    ps.length = n ∧ ∀ k pkt, ps.get? k = some pkt →
      b.getSlot (b.seqNumToIndex (start + (k : Int))) = some pkt ∧
      pkt.SequenceNumber = start + (k : Int) ∧ pkt.Continuous = true := by
  intro n
  induction n with
  | zero =>
    intro start ps h
    simp only [collectRange] at h
    cases h
    exact ⟨rfl, by intro k pkt hk; simp at hk⟩
  | succ m ih =>
    intro start ps h
    simp only [collectRange] at h
    split at h
    · simp at h
    · rename_i pkt hslot
      split at h
      · simp at h
      · rename_i hseqn
        split at h
        · simp at h
        · rename_i hcontn
          split at h
          · simp at h
          · rename_i rest hrest
            have hseq : pkt.SequenceNumber = start := not_not.mp hseqn
            have hcont : pkt.Continuous = true := by
              cases hb : pkt.Continuous
              · exact absurd (by rw [hb]; rfl) hcontn
              · rfl
            cases h
            have hr := ih (start + 1) rest hrest
            refine ⟨by simp [hr.1], ?_⟩
            intro k q hk
            cases k with
            | zero =>
              simp only [List.get?_cons_zero] at hk
              cases hk
              simpa using ⟨hslot, hseq, hcont⟩
            | succ k2 =>
              simp only [List.get?_cons_succ] at hk
              have := hr.2 k2 q hk
              have harith : start + 1 + (k2 : Int) = start + ((k2 + 1 : Nat) : Int) := by
                push_cast
                ring
              rw [harith] at this
              exact this

theorem findFrameStart_spec (b : VideoPacketBuffer) (endSeq : Int) :
    ∀ (fuel : Nat) (cur start : Int),
    b.findFrameStart endSeq cur fuel = some start →
    start ≤ cur ∧ ∃ pkt, b.getSlot (b.seqNumToIndex start) = some pkt ∧
      pkt.SequenceNumber = start ∧ headerIsFirst pkt = true := by
  intro fuel
  induction fuel with
  | zero =>
    intro cur start h
    simp only [findFrameStart] at h
    split at h
    · simp at h
    · rename_i pkt hslot
      split at h
      · simp at h
      · split at h
        · rename_i hseqn hfirst
          cases h
          exact ⟨le_refl _, pkt, hslot, by omega, hfirst⟩
        · simp at h
  | succ m ih =>
    intro cur start h
    simp only [findFrameStart] at h
    split at h
    · simp at h
    · rename_i pkt hslot
      split at h
      · simp at h
      · split at h
        · rename_i hseqn hfirst
          cases h
          exact ⟨le_refl _, pkt, hslot, by omega, hfirst⟩
        · split at h
          · simp at h
          · rename_i hseqn hfirst hbound
            have := ih (cur - 1) start h
            exact ⟨by omega, this.2⟩

theorem extractFrame_spec (b : VideoPacketBuffer) (endSeq : Int)
    (fr : List BufferedPacket) (hx : b.extractFrame endSeq = some fr) :
    ∃ start, frameRun fr start endSeq ∧
      (∀ k pkt, fr.get? k = some pkt →
        b.getSlot (b.seqNumToIndex (start + (k : Int))) = some pkt ∧
        pkt.Continuous = true) ∧
      frHeadIsFirst fr := by
  simp only [extractFrame] at hx
  cases hfs : b.findFrameStart endSeq endSeq (b.size + 2) with
  | none => rw [hfs] at hx; cases hx
  | some start =>
    rw [hfs] at hx
    obtain ⟨hle, pktF, hslotF, hseqF, hfirstF⟩ :=
      findFrameStart_spec b endSeq (b.size + 2) endSeq start hfs
    obtain ⟨hlen, hcells⟩ := collectRange_spec b _ start fr hx
    have hlen2 : fr.length = (endSeq - start).toNat + 1 := hlen
    refine ⟨start, ⟨hle, hlen2, ?_⟩, ?_, ?_⟩
    · intro k pkt hk
      exact (hcells k pkt hk).2.1
    · intro k pkt hk
      exact ⟨(hcells k pkt hk).1, (hcells k pkt hk).2.2⟩
    · intro pkt hpkt
      rw [List.head?_eq_getElem?, ← List.get?_eq_getElem?] at hpkt
      have h0 := hcells 0 pkt hpkt
      have : b.getSlot (b.seqNumToIndex start) = some pkt := by
        have := h0.1
        simpa using this
      rw [hslotF] at this
      cases this
      exact hfirstF

theorem getSlot_clearFrameSlots_cases (b : VideoPacketBuffer)
    (ps : List BufferedPacket) (j : Nat) :
    (b.clearFrameSlots ps).getSlot j = none ∨
      (b.clearFrameSlots ps).getSlot j = b.getSlot j := by
  induction ps generalizing b with
  | nil => exact Or.inr rfl
  | cons p rest ih =>
    simp only [clearFrameSlots, List.foldl_cons] at *
    rcases ih (b.setSlot (b.seqNumToIndex p.SequenceNumber) none) with hn | hs
    · exact Or.inl hn
    · rw [hs]
      by_cases hij : b.seqNumToIndex p.SequenceNumber = j
      · by_cases hlt : j < b.size
        · rw [hij]
          exact Or.inl (getSlot_setSlot_self b (hij ▸ hlt) none)
        · rw [setSlot_of_size_le b (by omega)]
          exact Or.inr rfl
      · rw [getSlot_setSlot_other b hij]
        exact Or.inr rfl

theorem not_holdsSeq_clearFrameSlots {b : VideoPacketBuffer} {s : Int}
    (ps : List BufferedPacket) (h : ¬ holdsSeq b s) :
    ¬ holdsSeq (b.clearFrameSlots ps) s := by
  rintro ⟨p, hp, hps⟩
  have hsz : (b.clearFrameSlots ps).size = b.size := size_clearFrameSlots ..
  rw [seqNumToIndex_eq_of_size_eq hsz] at hp
  rcases getSlot_clearFrameSlots_cases b ps (b.seqNumToIndex s) with hn | heq
  · rw [hn] at hp
    cases hp
  · rw [heq] at hp
    exact h ⟨p, hp, hps⟩

end VideoPacketBuffer

/-- A frame run is never empty. -/
theorem frameRun_ne_nil {fr : List BufferedPacket} {s l : Int}
    (h : frameRun fr s l) : fr ≠ [] := by
  intro hnil
  have := h.2.1
  rw [hnil] at this
  simp at this

/-- The head of a frame run carries sequence number `s`. -/
theorem frameRun_headSeq {fr : List BufferedPacket} {s l : Int}
    (h : frameRun fr s l) : frHeadSeq fr = s := by
  obtain ⟨hle, hlen, hcells⟩ := h
  cases fr with
  | nil => simp at hlen
  | cons p rest =>
    have := hcells 0 p (by simp)
    simp only [frHeadSeq, List.head?_cons, Option.map_some', Option.getD_some]
    rw [this]
    simp

/-- The last element of a frame run carries sequence number `l`. -/
theorem frameRun_lastSeq {fr : List BufferedPacket} {s l : Int}
    (h : frameRun fr s l) : frLastSeq fr = l := by
  obtain ⟨hle, hlen, hcells⟩ := h
  have hne : fr ≠ [] := by
    intro hnil
    rw [hnil] at hlen
    simp at hlen
  have hlast : fr.getLast? = fr.get? (fr.length - 1) := by
    rw [List.getLast?_eq_getElem?, List.get?_eq_getElem?]
  cases hp : fr.get? (fr.length - 1) with
  | none =>
    rw [List.get?_eq_none] at hp
    omega
  | some pkt =>
    have := hcells _ pkt hp
    simp only [frLastSeq, hlast, hp, Option.map_some', Option.getD_some]
    rw [this, hlen]
    omega

/-- Membership in the sequence numbers of a frame run is exactly the
interval `[s, l]`. -/
theorem frameRun_mem_seqsOf {fr : List BufferedPacket} {s l x : Int}
    (h : frameRun fr s l) : x ∈ seqsOf fr ↔ s ≤ x ∧ x ≤ l := by
  obtain ⟨hle, hlen, hcells⟩ := h
  constructor
  · intro hx
    obtain ⟨p, hp, hpx⟩ := List.mem_map.1 hx
    obtain ⟨k, hklt, hkp⟩ := List.mem_iff_getElem.1 hp
    have hget : fr.get? k = some p := by
      rw [List.get?_eq_getElem?, List.getElem?_eq_getElem hklt, hkp]
    have := hcells k p hget
    subst hpx
    rw [this]
    omega
  · rintro ⟨hsx, hxl⟩
    have hk : (x - s).toNat < fr.length := by omega
    cases hp : fr.get? (x - s).toNat with
    | none =>
      rw [List.get?_eq_none] at hp
      omega
    | some p =>
      have := hcells _ p hp
      have hxeq : p.SequenceNumber = x := by
        rw [this]
        omega
      exact List.mem_map.2 ⟨p, List.get?_mem hp, hxeq⟩


namespace VideoPacketBuffer

/-- Every sequence number of an extracted frame was present in the
buffer the frame was extracted from. -/
theorem extractFrame_holdsSeq {b : VideoPacketBuffer} {endSeq : Int}
    {fr : List BufferedPacket} (hx : b.extractFrame endSeq = some fr) :
    ∀ x ∈ seqsOf fr, holdsSeq b x := by
  obtain ⟨start, hrun, hcells, _⟩ := extractFrame_spec b endSeq fr hx
  intro x hmem
  rw [frameRun_mem_seqsOf hrun] at hmem
  have hk : (x - start).toNat < fr.length := by
    obtain ⟨_, hlen, _⟩ := hrun
    omega
  cases hp : fr.get? (x - start).toNat with
  | none =>
    rw [List.get?_eq_none] at hp
    omega
  | some p =>
    have hcell := hcells _ p hp
    have hseqp := hrun.2.2 _ p hp
    have hxeq : start + ((x - start).toNat : Int) = x := by omega
    exact ⟨p, by rw [← hxeq]; exact hcell.1, by rw [hseqp]; omega⟩

/-- When the end-slot packet of an extracted frame ends a frame, the
last packet of the extracted run ends a frame. -/
theorem extractFrame_lastIsLast {b : VideoPacketBuffer} {endSeq : Int}
    {fr : List BufferedPacket} {pkt1 : BufferedPacket}
    (hx : b.extractFrame endSeq = some fr)
    (hslot1 : b.getSlot (b.seqNumToIndex endSeq) = some pkt1)
    (hlast1 : headerIsLast pkt1 = true) : frLastIsLast fr := by
  obtain ⟨start, hrun, hcells, _⟩ := extractFrame_spec b endSeq fr hx
  obtain ⟨hle, hlen, hseqs⟩ := hrun
  intro q hq
  rw [List.getLast?_eq_getElem?, ← List.get?_eq_getElem?] at hq
  have hcell := hcells _ q hq
  have harith : start + ((fr.length - 1 : Nat) : Int) = endSeq := by
    rw [hlen]
    push_cast
    omega
  rw [harith] at hcell
  rw [hslot1] at hcell
  cases hcell.1
  exact hlast1

/-- If a sequence number of an extracted frame is cleared along with the
frame, it is no longer present. -/
theorem not_holdsSeq_clear_of_mem {b : VideoPacketBuffer} {endSeq x : Int}
    {fr : List BufferedPacket} (hx : b.extractFrame endSeq = some fr)
    (hmem : x ∈ seqsOf fr) : ¬ holdsSeq (b.clearFrameSlots fr) x := by
  obtain ⟨p, hp, hps⟩ := List.mem_map.1 hmem
  have hhold : holdsSeq b x := extractFrame_holdsSeq hx x hmem
  obtain ⟨q, hq, hqs⟩ := hhold
  have hlt : b.seqNumToIndex p.SequenceNumber < b.size := by
    rw [hps, ← hqs]
    exact lt_size_of_getSlot_eq_some (hqs ▸ hq)
  have hclear := getSlot_clearFrameSlots_of_mem b hp hlt
  rw [hps] at hclear
  rintro ⟨r, hr, hrs⟩
  have hsz : (b.clearFrameSlots fr).size = b.size := size_clearFrameSlots ..
  rw [seqNumToIndex_eq_of_size_eq hsz, hclear] at hr
  cases hr

/-- A packet surviving buffer clearing either survives in place or its
sequence number belongs to the extracted frame. -/
theorem holdsSeq_clear_cases {b : VideoPacketBuffer} {endSeq s : Int}
    {fr : List BufferedPacket} (hx : b.extractFrame endSeq = some fr)
    (hs : holdsSeq b s) :
    holdsSeq (b.clearFrameSlots fr) s ∨ s ∈ seqsOf fr := by
  by_cases hmem : s ∈ seqsOf fr
  · exact Or.inr hmem
  · left
    obtain ⟨q, hq, hqs⟩ := hs
    have huntouched : ∀ p ∈ fr, b.seqNumToIndex p.SequenceNumber ≠ b.seqNumToIndex s := by
      intro p hp hidx
      have hpx : holdsSeq b p.SequenceNumber :=
        extractFrame_holdsSeq hx _ (List.mem_map.2 ⟨p, hp, rfl⟩)
      obtain ⟨r, hr, hrs⟩ := hpx
      rw [hidx, hq] at hr
      cases hr
      exact hmem (List.mem_map.2 ⟨p, hp, by omega⟩)
    have hsz : (b.clearFrameSlots fr).size = b.size := size_clearFrameSlots ..
    refine ⟨q, ?_, hqs⟩
    rw [seqNumToIndex_eq_of_size_eq hsz,
      getSlot_clearFrameSlots_of_untouched b fr huntouched]
    exact hq

end VideoPacketBuffer

/-- The loop invariant transfers across a buffer step that preserves the
size and the set of present sequence numbers (marking a packet as
continuous), and weakens from position `i + 1` to `i`. -/
theorem LoopSpec_transfer {seqNum : Int} {b b' : VideoPacketBuffer} {i : Nat}
    {r : VideoPacketBuffer × List (List BufferedPacket)}
    (hsz : b'.size = b.size) (hiff : ∀ s, holdsSeq b' s ↔ holdsSeq b s)
    (h : LoopSpec seqNum b' (i + 1) r) : LoopSpec seqNum b i r := by
  obtain ⟨h1, h2, h3, h4, h5⟩ := h
  refine ⟨by rw [h1, hsz], ?_, ?_, ?_, h5⟩
  · intro s hs
    exact h2 s ((hiff s).2 hs)
  · intro s hs
    exact h3 s (fun hc => hs ((hiff s).1 hc))
  · intro fr hfr
    obtain ⟨start, j, hij, hrun, hfirst, hlast⟩ := h4 fr hfr
    rw [hsz] at hrun
    exact ⟨start, j, by omega, hrun, hfirst, hlast⟩

/-- Main invariant of the `findFrames` scan loop. -/
theorem findFramesLoop_spec (seqNum : Int) :
    ∀ (fuel : Nat) (b : VideoPacketBuffer) (i : Nat),
    LoopSpec seqNum b i (VideoPacketBuffer.findFramesLoop seqNum b i fuel) := by
  intro fuel
  induction fuel with
  | zero =>
    intro b i
    simp only [VideoPacketBuffer.findFramesLoop]
    exact ⟨rfl, fun s hs => Or.inl hs, by simp, by simp, by simp⟩
  | succ n ih =>
    intro b i
    simp only [VideoPacketBuffer.findFramesLoop]
    split
    · exact LoopSpec_transfer rfl (fun s => Iff.rfl) (ih b (i + 1))
    · split
      · exact LoopSpec_transfer rfl (fun s => Iff.rfl) (ih b (i + 1))
      · rename_i pkt0 hslot0
        split
        · exact LoopSpec_transfer (b.size_markContinuous _)
            (b.holdsSeq_markContinuous _) (ih _ (i + 1))
        · rename_i pkt1 hslot1
          split
          · -- frame-ending packet: try extraction
            rename_i hlast1
            split
            · exact LoopSpec_transfer (b.size_markContinuous _)
                (b.holdsSeq_markContinuous _) (ih _ (i + 1))
            · rename_i fr hx
              split
              · exact LoopSpec_transfer (b.size_markContinuous _)
                  (b.holdsSeq_markContinuous _) (ih _ (i + 1))
              · rename_i hne
                -- the cons case: a frame is extracted and its slots cleared
                have hsz1 : (b.markContinuous
                    (b.seqNumToIndex (seqNum - (b.size : Int) / 2 + (i : Int)))).size
                    = b.size := b.size_markContinuous _
                set cur : Int := seqNum - (b.size : Int) / 2 + (i : Int) with hcur
                set b1 := b.markContinuous (b.seqNumToIndex cur) with hb1
                set b2 := b1.clearFrameSlots fr with hb2
                have hsz2 : b2.size = b1.size :=
                  VideoPacketBuffer.size_clearFrameSlots ..
                have hidx1 : ∀ t, b1.seqNumToIndex t = b.seqNumToIndex t :=
                  VideoPacketBuffer.seqNumToIndex_eq_of_size_eq hsz1
                obtain ⟨start, hrun, hcells, hheadfirst⟩ :=
                  VideoPacketBuffer.extractFrame_spec b1 cur fr hx
                have hslot1b : b1.getSlot (b1.seqNumToIndex cur) = some pkt1 := by
                  rw [hidx1]
                  exact hslot1
                have hlastlast : frLastIsLast fr :=
                  VideoPacketBuffer.extractFrame_lastIsLast hx hslot1b hlast1
                have hcurmem : cur ∈ seqsOf fr :=
                  (frameRun_mem_seqsOf hrun).2 ⟨hrun.1, le_refl _⟩
                have hnb2cur : ¬ holdsSeq b2 cur :=
                  VideoPacketBuffer.not_holdsSeq_clear_of_mem hx hcurmem
                have IH2 := ih b2 (i + 1)
                obtain ⟨ihsz, ihkeep, ihabs, ihfr, ihpair⟩ := IH2
                refine ⟨?_, ?_, ?_, ?_, ?_⟩
                · show (VideoPacketBuffer.findFramesLoop seqNum b2 (i+1) n).1.size = b.size
                  rw [ihsz, hsz2, hsz1]
                · intro s hs
                  have hs1 : holdsSeq b1 s := (b.holdsSeq_markContinuous _ s).2 hs
                  rcases VideoPacketBuffer.holdsSeq_clear_cases hx hs1 with h2s | hmem
                  · rcases ihkeep s h2s with hR | ⟨g, hg, hgm⟩
                    · exact Or.inl hR
                    · exact Or.inr ⟨g, List.mem_cons_of_mem _ hg, hgm⟩
                  · exact Or.inr ⟨fr, List.mem_cons_self _ _, hmem⟩
                · intro s hs fr' hfr'
                  have hs1 : ¬ holdsSeq b1 s :=
                    fun hc => hs ((b.holdsSeq_markContinuous _ s).1 hc)
                  rcases List.mem_cons.1 hfr' with hfr | hfr
                  · subst hfr
                    intro hsm
                    exact hs1 (VideoPacketBuffer.extractFrame_holdsSeq hx s hsm)
                  · exact ihabs s (VideoPacketBuffer.not_holdsSeq_clearFrameSlots fr hs1)
                      fr' hfr
                · intro fr' hfr'
                  rcases List.mem_cons.1 hfr' with hfr | hfr
                  · subst hfr
                    exact ⟨start, i, le_refl _, hrun, hheadfirst, hlastlast⟩
                  · obtain ⟨s', j', hij', hrun', hfirst', hlast'⟩ := ihfr fr' hfr
                    rw [hsz2, hsz1] at hrun'
                    exact ⟨s', j', by omega, hrun', hfirst', hlast'⟩
                · rw [List.pairwise_cons]
                  refine ⟨?_, ihpair⟩
                  intro g hg
                  obtain ⟨s', j', hij', hrun', _, _⟩ := ihfr g hg
                  rw [hsz2, hsz1] at hrun'
                  have hlastfr : frLastSeq fr = cur := frameRun_lastSeq hrun
                  have hheadg : frHeadSeq g = s' := frameRun_headSeq hrun'
                  have hnotmem : cur ∉ seqsOf g := ihabs cur hnb2cur g hg
                  rw [frameRun_mem_seqsOf hrun'] at hnotmem
                  have hcurlt : cur < seqNum - (b.size : Int) / 2 + (j' : Int) := by
                    rw [hcur]
                    have : (i : Int) + 1 ≤ (j' : Int) := by exact_mod_cast hij'
                    omega
                  rw [hlastfr, hheadg]
                  by_contra hge
                  push_neg at hge
                  exact hnotmem ⟨hge, le_of_lt hcurlt⟩
          · exact LoopSpec_transfer (b.size_markContinuous _)
              (b.holdsSeq_markContinuous _) (ih _ (i + 1))

/-- The scan invariant holds for `findFrames`. -/
theorem findFrames_spec (b : VideoPacketBuffer) (seqNum : Int) :
    LoopSpec seqNum b 0 (b.findFrames seqNum) :=
  findFramesLoop_spec seqNum b.size b 0

/-- Valid slot indexes are below the buffer size. -/
theorem seqNumToIndex_lt (b : VideoPacketBuffer) (s : Int) (h : 0 < b.size) :
    b.seqNumToIndex s < b.size := by
  simp only [VideoPacketBuffer.seqNumToIndex]
  have h0 : (b.size : Int) ≠ 0 := by
    have hne : b.size ≠ 0 := by omega
    exact_mod_cast hne
  have h1 : 0 ≤ s % (b.size : Int) := Int.emod_nonneg s h0
  have h2 : s % (b.size : Int) < (b.size : Int) :=
    Int.emod_lt_of_pos s (by exact_mod_cast h)
  omega

/-- Every frame emitted by `InsertPacket` is a contiguous run with the
frame-boundary flags at its ends. -/
theorem InsertPacket_frames (b : VideoPacketBuffer) (pkt : BufferedPacket) :
    ∀ fr ∈ (b.InsertPacket pkt).2, ∃ start last,
      frameRun fr start last ∧ frHeadIsFirst fr ∧ frLastIsLast fr := by
  intro fr hfr
  simp only [VideoPacketBuffer.InsertPacket] at hfr
  split at hfr
  · split at hfr
    · simp at hfr
    · obtain ⟨_, _, _, hP4, _⟩ := findFrames_spec _ pkt.SequenceNumber
      obtain ⟨start, j, _, hrun, hfirst, hlast⟩ := hP4 fr hfr
      exact ⟨start, _, hrun, hfirst, hlast⟩
  · obtain ⟨_, _, _, hP4, _⟩ := findFrames_spec _ pkt.SequenceNumber
    obtain ⟨start, j, _, hrun, hfirst, hlast⟩ := hP4 fr hfr
    exact ⟨start, _, hrun, hfirst, hlast⟩

/-- Frames emitted by one `InsertPacket` call are pairwise ordered:
every sequence number of an earlier frame is below every sequence number
of a later frame. -/
theorem InsertPacket_pairwise (b : VideoPacketBuffer) (pkt : BufferedPacket) :
    List.Pairwise (fun f g => ∀ x ∈ seqsOf f, ∀ y ∈ seqsOf g, x < y)
      (b.InsertPacket pkt).2 := by
  have hmain : ∀ (b1 : VideoPacketBuffer) (s : Int),
      List.Pairwise (fun f g => ∀ x ∈ seqsOf f, ∀ y ∈ seqsOf g, x < y)
        (b1.findFrames s).2 := by
    intro b1 s
    obtain ⟨_, _, _, hP4, hP5⟩ := findFrames_spec b1 s
    refine List.Pairwise.imp_of_mem ?_ hP5
    intro f g hf hg hlt x hx y hy
    obtain ⟨sf, jf, _, hrunf, _, _⟩ := hP4 f hf
    obtain ⟨sg, jg, _, hrung, _, _⟩ := hP4 g hg
    have hxf := (frameRun_mem_seqsOf hrunf).1 hx
    have hyg := (frameRun_mem_seqsOf hrung).1 hy
    have h1 : frLastSeq f = _ := frameRun_lastSeq hrunf
    have h2 : frHeadSeq g = sg := frameRun_headSeq hrung
    rw [h1, h2] at hlt
    omega
  simp only [VideoPacketBuffer.InsertPacket]
  split
  · split
    · exact List.Pairwise.nil
    · exact hmain _ _
  · exact hmain _ _

/-- A present packet disappears from the buffer across `InsertPacket`
only by slot collision with the inserted packet or by being part of an
emitted frame. -/
theorem InsertPacket_removal (b : VideoPacketBuffer) (pkt : BufferedPacket)
    (s : Int) (hs : holdsSeq b s)
    (hgone : ¬ holdsSeq (b.InsertPacket pkt).1 s) :
    (b.seqNumToIndex s = b.seqNumToIndex pkt.SequenceNumber ∧
      s ≠ pkt.SequenceNumber) ∨
    ∃ fr ∈ (b.InsertPacket pkt).2, s ∈ seqsOf fr := by
  have hpos : 0 < b.size := by
    obtain ⟨q, hq, _⟩ := hs
    have h1 := VideoPacketBuffer.lt_size_of_getSlot_eq_some hq
    omega
  have hidxp : b.seqNumToIndex pkt.SequenceNumber < b.size :=
    seqNumToIndex_lt b _ hpos
  have hstore : ∀ (hcase : ¬ (b.seqNumToIndex s = b.seqNumToIndex pkt.SequenceNumber
        ∧ s ≠ pkt.SequenceNumber)),
      let b1 := b.setSlot (b.seqNumToIndex pkt.SequenceNumber)
        (some { pkt with Continuous := false })
      holdsSeq b1 s := by
    intro hcase b1
    have hsz : b1.size = b.size := VideoPacketBuffer.size_setSlot ..
    by_cases hidx : b.seqNumToIndex s = b.seqNumToIndex pkt.SequenceNumber
    · have hseq : s = pkt.SequenceNumber := by
        by_contra hne
        exact hcase ⟨hidx, hne⟩
      refine ⟨{ pkt with Continuous := false }, ?_, by simp [hseq]⟩
      rw [VideoPacketBuffer.seqNumToIndex_eq_of_size_eq hsz, hidx]
      exact VideoPacketBuffer.getSlot_setSlot_self b hidxp _
    · obtain ⟨q, hq, hqs⟩ := hs
      refine ⟨q, ?_, hqs⟩
      rw [VideoPacketBuffer.seqNumToIndex_eq_of_size_eq hsz,
        VideoPacketBuffer.getSlot_setSlot_other b (fun he => hidx he.symm)]
      exact hq
  simp only [VideoPacketBuffer.InsertPacket] at hgone ⊢
  cases hslot : b.getSlot (b.seqNumToIndex pkt.SequenceNumber) with
  | some existing =>
    simp only [hslot] at hgone ⊢
    by_cases hdup : existing.SequenceNumber = pkt.SequenceNumber
    · rw [if_pos hdup] at hgone
      exact absurd hs hgone
    · rw [if_neg hdup] at hgone ⊢
      by_cases hcase : b.seqNumToIndex s = b.seqNumToIndex pkt.SequenceNumber
          ∧ s ≠ pkt.SequenceNumber
      · exact Or.inl hcase
      · have hb1 := hstore hcase
        obtain ⟨_, hP2, _, _, _⟩ := findFrames_spec
          (b.setSlot (b.seqNumToIndex pkt.SequenceNumber)
            (some { pkt with Continuous := false })) pkt.SequenceNumber
        rcases hP2 s hb1 with hk | ⟨fr, hfr, hm⟩
        · exact absurd hk hgone
        · exact Or.inr ⟨fr, hfr, hm⟩
  | none =>
    simp only [hslot] at hgone ⊢
    by_cases hcase : b.seqNumToIndex s = b.seqNumToIndex pkt.SequenceNumber
        ∧ s ≠ pkt.SequenceNumber
    · exact Or.inl hcase
    · have hb1 := hstore hcase
      obtain ⟨_, hP2, _, _, _⟩ := findFrames_spec
        (b.setSlot (b.seqNumToIndex pkt.SequenceNumber)
          (some { pkt with Continuous := false })) pkt.SequenceNumber
      rcases hP2 s hb1 with hk | ⟨fr, hfr, hm⟩
      · exact absurd hk hgone
      · exact Or.inr ⟨fr, hfr, hm⟩

/-- C1 (amended): every frame returned by `VideoPacketBuffer.InsertPacket`
is a non-empty list of packets whose unwrapped sequence numbers form a
contiguous run in ascending order, whose first packet has
`is_first_packet_in_frame` set and whose last packet has
`is_last_packet_in_frame` set.  (The claim's further condition that all
packets of the run share one `rtp_timestamp` does not hold; see the
counterexample.) -/
theorem c1_insertPacket_frames_contiguous (b : VideoPacketBuffer)
    (pkt : BufferedPacket) (fr : List BufferedPacket)
    (hfr : fr ∈ (b.InsertPacket pkt).2) :
    fr ≠ [] ∧
    (∀ k p q, fr.get? k = some p → fr.get? (k + 1) = some q →
      q.SequenceNumber = p.SequenceNumber + 1) ∧
    frHeadIsFirst fr ∧ frLastIsLast fr := by
  obtain ⟨start, last, hrun, hfirst, hlast⟩ := InsertPacket_frames b pkt fr hfr
  refine ⟨frameRun_ne_nil hrun, ?_, hfirst, hlast⟩
  intro k p q hp hq
  have h1 := hrun.2.2 k p hp
  have h2 := hrun.2.2 (k + 1) q hq
  rw [h1, h2]
  push_cast
  ring

/-- C1 counterexample: the timestamp-unity part of the claim fails.
From the empty 64-slot buffer, insert packet 100 (ts 1, frame start),
packet 101 (ts 1), packet 164 (ts 9, evicting packet 100 from slot 36),
packet 100 again with ts 2 (frame start), and finally packet 102 (ts 1,
frame end).  Packet 101 kept its stale `Continuous` flag from before
packet 100 was replaced, so the final insert emits a frame whose packets
carry timestamps 2, 1 and 1 — not one shared `rtp_timestamp`. -/
theorem c1_mixed_timestamp_frame :
    VideoPacketBuffer.InsertPacket exBuf0 (exPacket 100 1 true false)
      = (exBufA, []) ∧
    VideoPacketBuffer.InsertPacket exBufA (exPacket 101 1 false false)
      = (exBufB, []) ∧
    VideoPacketBuffer.InsertPacket exBufB (exPacket 164 9 false false)
      = (exBufX, []) ∧
    VideoPacketBuffer.InsertPacket exBufX (exPacket 100 2 true false)
      = (exBufD, []) ∧
    (VideoPacketBuffer.InsertPacket exBufD (exPacket 102 1 false true)).2
      = [[exPacketC 100 2 true false, exPacketC 101 1 false false,
          exPacketC 102 1 false true]] ∧
    (exPacketC 100 2 true false).Timestamp
      ≠ (exPacketC 101 1 false false).Timestamp :=
  ⟨rfl, rfl, rfl, rfl, rfl, by decide⟩

/-- C1 witness: the amended statement at a concrete single-packet frame. -/
theorem c1_witness :
    [exPacketC 50 7 true true] ≠ [] ∧
    (∀ k p q, [exPacketC 50 7 true true].get? k = some p →
      [exPacketC 50 7 true true].get? (k + 1) = some q →
      q.SequenceNumber = p.SequenceNumber + 1) ∧
    frHeadIsFirst [exPacketC 50 7 true true] ∧
    frLastIsLast [exPacketC 50 7 true true] :=
  c1_insertPacket_frames_contiguous exBuf0 (exPacket 50 7 true true)
    [exPacketC 50 7 true true]
    (by
      have h : (VideoPacketBuffer.InsertPacket exBuf0 (exPacket 50 7 true true)).2
          = [[exPacketC 50 7 true true]] := rfl
      rw [h]
      exact List.mem_singleton_self _)

/-- C2: a single `InsertPacket` call may return several completed
frames — inserting packet 63 into the gap-fill state `exBufC2` both
finishes marking the queued 34-packet frame 0..33 (whose tail the
earlier scans never reached) and completes the single-packet frame 63,
emitting two frames at once — and for every buffer and packet the frames
returned by one call are in ascending sequence-number order (every
sequence number of an earlier frame is strictly below every sequence
number of a later one). -/
theorem c2_multi_frame_ascending :
    2 ≤ (VideoPacketBuffer.InsertPacket exBufC2 (exPacket 63 7 true true)).2.length ∧
    ∀ (b : VideoPacketBuffer) (pkt : BufferedPacket),
      List.Pairwise (fun f g => ∀ x ∈ seqsOf f, ∀ y ∈ seqsOf g, x < y)
        (b.InsertPacket pkt).2 := by
  constructor
  · have h : (VideoPacketBuffer.InsertPacket exBufC2
        (exPacket 63 7 true true)).2.length = 2 := rfl
    omega
  · exact InsertPacket_pairwise

/-- C3 (amended): when the slot of the inserted packet already holds a
packet with the same unwrapped sequence number, `InsertPacket` returns
an empty frame list and leaves the buffer unchanged.  (The claim's
further conclusion — that delivering the same packet more than once
always yields the same emission set as delivering it once — fails once
the first copy was consumed by frame extraction; see the
counterexample.) -/
theorem c3_duplicate_insert_is_noop (b : VideoPacketBuffer)
    (pkt : BufferedPacket)
    (h : ∃ q, b.getSlot (b.seqNumToIndex pkt.SequenceNumber) = some q ∧
      q.SequenceNumber = pkt.SequenceNumber) :
    b.InsertPacket pkt = (b, []) := by
  obtain ⟨q, hq, hqs⟩ := h
  simp only [VideoPacketBuffer.InsertPacket, hq]
  rw [if_pos hqs]

/-- C3 counterexample: duplicates are not idempotent after extraction.
A single-packet frame (packet 50) is emitted on its first delivery and
its slot is cleared, so the buffer returns to the empty state; the
second delivery of the very same packet emits the frame again.  Two
deliveries therefore produce two frames, where one delivery produces
one. -/
theorem c3_redelivery_emits_again :
    (VideoPacketBuffer.InsertPacket exBuf0 (exPacket 50 7 true true)).2.length = 1 ∧
    (VideoPacketBuffer.InsertPacket
      (VideoPacketBuffer.InsertPacket exBuf0 (exPacket 50 7 true true)).1
      (exPacket 50 7 true true)).2.length = 1 := by
  have h : VideoPacketBuffer.InsertPacket exBuf0 (exPacket 50 7 true true)
      = (exBuf0, [[exPacketC 50 7 true true]]) := rfl
  constructor
  · rw [h]
    rfl
  · rw [h]
    rw [h]
    rfl

/-- C3 witness: a duplicate of the packet stored in slot 36. -/
theorem c3_witness :
    VideoPacketBuffer.InsertPacket exBufA (exPacket 100 1 true false)
      = (exBufA, []) :=
  c3_duplicate_insert_is_noop exBufA (exPacket 100 1 true false)
    ⟨exPacketC 100 1 true false, rfl, rfl⟩

/-- C9 (amended): a packet stored in the packet buffer is removed only
by being overwritten by a packet with a different unwrapped sequence
number mapping to the same slot, or by being consumed into an emitted
frame.  (The claim's restriction that only a *newer* packet overwrites
fails: `InsertPacket` replaces the slot whenever the sequence numbers
differ, so an older packet evicts too; see the counterexample.) -/
theorem c9_removal_only_by_overwrite_or_extraction (b : VideoPacketBuffer)
    (pkt : BufferedPacket) (s : Int) (hs : holdsSeq b s)
    (hgone : ¬ holdsSeq (b.InsertPacket pkt).1 s) :
    (b.seqNumToIndex s = b.seqNumToIndex pkt.SequenceNumber ∧
      s ≠ pkt.SequenceNumber) ∨
    ∃ fr ∈ (b.InsertPacket pkt).2, s ∈ seqsOf fr :=
  InsertPacket_removal b pkt s hs hgone

/-- C9 counterexample: inserting an *older* packet does evict the stored
packet.  Packet 164 occupies slot 36; inserting packet 100 (older, same
slot) replaces it without emitting anything. -/
theorem c9_older_packet_evicts :
    VideoPacketBuffer.InsertPacket exBuf0 (exPacket 164 9 false false)
      = (exBuf164, []) ∧
    holdsSeq exBuf164 164 ∧
    (exPacket 100 1 false false).SequenceNumber < 164 ∧
    (VideoPacketBuffer.InsertPacket exBuf164 (exPacket 100 1 false false)).2
      = [] ∧
    ¬ holdsSeq
      (VideoPacketBuffer.InsertPacket exBuf164 (exPacket 100 1 false false)).1
      164 := by
  refine ⟨rfl, ⟨exPacket 164 9 false false, rfl, rfl⟩, by decide, rfl, ?_⟩
  rintro ⟨p, hp, hps⟩
  have he : (VideoPacketBuffer.InsertPacket exBuf164
      (exPacket 100 1 false false)).1.getSlot
      ((VideoPacketBuffer.InsertPacket exBuf164
        (exPacket 100 1 false false)).1.seqNumToIndex 164)
      = some (exPacket 100 1 false false) := rfl
  rw [he] at hp
  cases hp
  exact absurd hps (by decide)

/-- C9 witness: the stored packet 164 is removed by the colliding insert
of packet 100, and the characterization names the slot collision. -/
theorem c9_witness :
    (exBuf164.seqNumToIndex 164
        = exBuf164.seqNumToIndex (exPacket 100 1 false false).SequenceNumber ∧
      (164 : Int) ≠ (exPacket 100 1 false false).SequenceNumber) ∨
    ∃ fr ∈ (exBuf164.InsertPacket (exPacket 100 1 false false)).2,
      (164 : Int) ∈ seqsOf fr :=
  c9_removal_only_by_overwrite_or_extraction exBuf164
    (exPacket 100 1 false false) 164
    ⟨exPacket 164 9 false false, rfl, rfl⟩
    (by
      rintro ⟨p, hp, hps⟩
      have he : (VideoPacketBuffer.InsertPacket exBuf164
          (exPacket 100 1 false false)).1.getSlot
          ((VideoPacketBuffer.InsertPacket exBuf164
            (exPacket 100 1 false false)).1.seqNumToIndex 164)
          = some (exPacket 100 1 false false) := rfl
      rw [he] at hp
      cases hp
      exact absurd hps (by decide))

/-- C6 (amended): the 16-bit sequence unwrapper stores and returns the
first input; on every later input it adds to `last` the representative
`d` of the signed on-wire difference, where `d` is congruent to
`seq - (last mod 2^16)` modulo `2^16` and lies in the *closed* interval
`[-2^15, 2^15]`; the endpoints are taken exactly when the raw difference
equals them, so a raw difference of exactly `-2^15` is left at `-2^15`
(the claim instead said it normalizes into `(-2^15, 2^15]`, sending
`-2^15` to `+2^15`; see the counterexample). -/
theorem c6_unwrap_behavior (u : sequenceUnwrapper) (seq : Nat)
    (hseq : seq < 65536) :
    (u.started = false → u.unwrap seq = (⟨(seq : Int), true⟩, (seq : Int))) ∧
    (u.started = true → ∃ d : Int,
      u.unwrap seq = (⟨u.lastSeq + d, true⟩, u.lastSeq + d) ∧
      -32768 ≤ d ∧ d ≤ 32768 ∧
      (65536 : Int) ∣ (d - ((seq : Int) - u.lastSeq % 65536)) ∧
      (d = 32768 ↔ (seq : Int) - u.lastSeq % 65536 = 32768) ∧
      (d = -32768 ↔ (seq : Int) - u.lastSeq % 65536 = -32768)) := by
  have h1 : (0 : Int) ≤ u.lastSeq % 65536 := Int.emod_nonneg _ (by norm_num)
  have h2 : u.lastSeq % 65536 < 65536 := Int.emod_lt_of_pos _ (by norm_num)
  have h3 : ((seq : Nat) : Int) < 65536 := by exact_mod_cast hseq
  have h4 : (0 : Int) ≤ (seq : Int) := Int.ofNat_nonneg seq
  constructor
  · intro hst
    simp [sequenceUnwrapper.unwrap, hst]
  · intro hst
    simp only [sequenceUnwrapper.unwrap, hst, Bool.not_true, Bool.false_eq_true,
      if_false]
    by_cases hgt : (seq : Int) - u.lastSeq % 65536 > 32768
    · refine ⟨(seq : Int) - u.lastSeq % 65536 - 65536, ?_, by omega, by omega,
        ⟨-1, by ring⟩, by omega, by omega⟩
      rw [if_pos hgt]
    · by_cases hlt : (seq : Int) - u.lastSeq % 65536 < -32768
      · refine ⟨(seq : Int) - u.lastSeq % 65536 + 65536, ?_, by omega, by omega,
          ⟨1, by ring⟩, by omega, by omega⟩
        rw [if_neg hgt, if_pos hlt]
      · refine ⟨(seq : Int) - u.lastSeq % 65536, ?_, by omega, by omega,
          ⟨0, by ring⟩, by omega, by omega⟩
        rw [if_neg hgt, if_neg hlt]

/-- C6 counterexample: at the half-range boundary the code and the
claim's normalization rule disagree.  After input `32768`, input `0` has
raw difference exactly `-2^15`; the code leaves it at `-2^15` and
returns `0`, while the claim's rule (normalize into `(-2^15, 2^15]`,
modelled by `claimedUnwrap`) would return `65536`. -/
theorem c6_boundary_counterexample :
    sequenceUnwrapper.runList sequenceUnwrapper.init [32768, 0]
      = [32768, 0] ∧
    claimedRunList sequenceUnwrapper.init [32768, 0]
      = [32768, 65536] ∧
    ([32768, 0] : List Int) ≠ [32768, 65536] :=
  ⟨rfl, rfl, by decide⟩

/-- C6 witness: the characterization applied at `last = 32768`,
input `0`. -/
theorem c6_witness :
    ((⟨32768, true⟩ : sequenceUnwrapper).started = false →
      (⟨32768, true⟩ : sequenceUnwrapper).unwrap 0 = (⟨(0 : Int), true⟩, (0 : Int))) ∧
    ((⟨32768, true⟩ : sequenceUnwrapper).started = true → ∃ d : Int,
      (⟨32768, true⟩ : sequenceUnwrapper).unwrap 0
        = (⟨(⟨32768, true⟩ : sequenceUnwrapper).lastSeq + d, true⟩,
          (⟨32768, true⟩ : sequenceUnwrapper).lastSeq + d) ∧
      -32768 ≤ d ∧ d ≤ 32768 ∧
      (65536 : Int) ∣ (d - ((0 : Int) - (⟨32768, true⟩ : sequenceUnwrapper).lastSeq % 65536)) ∧
      (d = 32768 ↔ (0 : Int) - (⟨32768, true⟩ : sequenceUnwrapper).lastSeq % 65536 = 32768) ∧
      (d = -32768 ↔ (0 : Int) - (⟨32768, true⟩ : sequenceUnwrapper).lastSeq % 65536 = -32768)) :=
  c6_unwrap_behavior ⟨32768, true⟩ 0 (by decide)

/-- One unwrap step recovers the exact real-time difference when its
magnitude is below `2^15`. -/
theorem unwrap_step_exact (u : sequenceUnwrapper) (x y c : Int)
    (hst : u.started = true) (hlast : u.lastSeq = x + c)
    (hc : (65536 : Int) ∣ c) (hd : (y - x).natAbs < 32768) :
    u.unwrap ((y % 65536).toNat) = (⟨y + c, true⟩, y + c) := by
  obtain ⟨k, hk⟩ := hc
  have hy0 : (0 : Int) ≤ y % 65536 := Int.emod_nonneg _ (by norm_num)
  have hcast : (((y % 65536).toNat : Nat) : Int) = y % 65536 :=
    Int.toNat_of_nonneg hy0
  have hmod : (x + c) % 65536 = x % 65536 := by
    rw [hk]
    omega
  simp only [sequenceUnwrapper.unwrap, hst, Bool.not_true, Bool.false_eq_true,
    if_false, hcast, hlast, hmod]
  have hdefy : y % 65536 = y - 65536 * (y / 65536) := Int.emod_def y 65536
  have hdefx : x % 65536 = x - 65536 * (x / 65536) := Int.emod_def x 65536
  have hy1 : y % 65536 < 65536 := Int.emod_lt_of_pos _ (by norm_num)
  have hx0 : (0 : Int) ≤ x % 65536 := Int.emod_nonneg _ (by norm_num)
  have hx1 : x % 65536 < 65536 := Int.emod_lt_of_pos _ (by norm_num)
  have key : (if y % 65536 - x % 65536 > 32768 then y % 65536 - x % 65536 - 65536
      else if y % 65536 - x % 65536 < -32768 then y % 65536 - x % 65536 + 65536
      else y % 65536 - x % 65536) = y - x := by
    split
    · omega
    · split
      · omega
      · omega
  rw [key]
  have hfin : x + c + (y - x) = y + c := by ring
  rw [hfin]

/-- Running the unwrapper from a synchronized state over wire values of
a real sequence with small consecutive differences reproduces the real
sequence shifted by the constant `c`. -/
theorem runList_offset (r : List Int) :
    ∀ (x c : Int) (u : sequenceUnwrapper),
    u.started = true → u.lastSeq = x + c → (65536 : Int) ∣ c →
    List.Chain' (fun a bb => (bb - a).natAbs < 32768) (x :: r) →
    u.runList (r.map (fun a => (a % 65536).toNat)) = r.map (fun a => a + c) := by
  induction r with
  | nil => intros; rfl
  | cons y rest ih =>
    intro x c u hst hlast hc hch
    have hd : (y - x).natAbs < 32768 := (List.chain'_cons.1 hch).1
    simp only [List.map_cons, sequenceUnwrapper.runList]
    rw [unwrap_step_exact u x y c hst hlast hc hd]
    congr 1
    exact ih y c ⟨y + c, true⟩ rfl rfl hc (List.chain'_cons.1 hch).2

/-- C7: for every real sequence with consecutive differences of
magnitude below `2^15`, feeding its 16-bit wire values to a fresh
sequence unwrapper yields the real sequence shifted by one constant
(a multiple of `2^16`, equal to `0` for a stream starting in
`[0, 2^16)`), and in particular the outputs are strictly increasing
wherever the real values are. -/
theorem c7_unwrap_constant_offset (r : List Int)
    (hch : List.Chain' (fun a bb => (bb - a).natAbs < 32768) r) :
    ∃ c : Int, (65536 : Int) ∣ c ∧
      sequenceUnwrapper.runList sequenceUnwrapper.init
          (r.map (fun a => (a % 65536).toNat)) = r.map (fun a => a + c) ∧
      ∀ i a bb, r.get? i = some a → r.get? (i + 1) = some bb → a < bb →
        ∃ xa xb, (sequenceUnwrapper.runList sequenceUnwrapper.init
            (r.map (fun a => (a % 65536).toNat))).get? i = some xa ∧
          (sequenceUnwrapper.runList sequenceUnwrapper.init
            (r.map (fun a => (a % 65536).toNat))).get? (i + 1) = some xb ∧
          xa < xb := by
  have houts : ∀ c : Int, (65536 : Int) ∣ c →
      sequenceUnwrapper.runList sequenceUnwrapper.init
        (r.map (fun a => (a % 65536).toNat)) = r.map (fun a => a + c) →
      ∃ c2 : Int, (65536 : Int) ∣ c2 ∧
        sequenceUnwrapper.runList sequenceUnwrapper.init
            (r.map (fun a => (a % 65536).toNat)) = r.map (fun a => a + c2) ∧
        ∀ i a bb, r.get? i = some a → r.get? (i + 1) = some bb → a < bb →
          ∃ xa xb, (sequenceUnwrapper.runList sequenceUnwrapper.init
              (r.map (fun a => (a % 65536).toNat))).get? i = some xa ∧
            (sequenceUnwrapper.runList sequenceUnwrapper.init
              (r.map (fun a => (a % 65536).toNat))).get? (i + 1) = some xb ∧
            xa < xb := by
    intro c hdvd hmap
    refine ⟨c, hdvd, hmap, ?_⟩
    intro i a bb hga hgb hab
    refine ⟨a + c, bb + c, ?_, ?_, by omega⟩
    · rw [hmap, List.get?_map, hga]
      rfl
    · rw [hmap, List.get?_map, hgb]
      rfl
  cases r with
  | nil =>
    exact ⟨0, ⟨0, by ring⟩, rfl, by intro i a bb h; simp at h⟩
  | cons a rest =>
    have hdvd : (65536 : Int) ∣ (a % 65536 - a) := by
      refine ⟨-(a / 65536), ?_⟩
      rw [Int.emod_def]
      ring
    refine houts (a % 65536 - a) hdvd ?_
    have hcast : (((a % 65536).toNat : Nat) : Int) = a % 65536 :=
      Int.toNat_of_nonneg (Int.emod_nonneg _ (by norm_num))
    have h1 : sequenceUnwrapper.init.unwrap ((a % 65536).toNat)
        = (⟨a % 65536, true⟩, a % 65536) := by
      simp [sequenceUnwrapper.unwrap, sequenceUnwrapper.init, hcast]
    simp only [List.map_cons, sequenceUnwrapper.runList]
    rw [h1]
    have hshift : a % 65536 = a + (a % 65536 - a) := by ring
    congr 1
    exact runList_offset rest a (a % 65536 - a) ⟨a % 65536, true⟩ rfl
      (by show a % 65536 = a + (a % 65536 - a); ring) hdvd hch

/-- C7 witness: the wrap-around stream 65535, 65536, 65537 (wire values
65535, 0, 1) is reproduced with offset 0. -/
theorem c7_witness :
    ∃ c : Int, (65536 : Int) ∣ c ∧
      sequenceUnwrapper.runList sequenceUnwrapper.init
          (([65535, 65536, 65537] : List Int).map (fun a => (a % 65536).toNat))
        = ([65535, 65536, 65537] : List Int).map (fun a => a + c) ∧
      ∀ i a bb, ([65535, 65536, 65537] : List Int).get? i = some a →
        ([65535, 65536, 65537] : List Int).get? (i + 1) = some bb → a < bb →
        ∃ xa xb, (sequenceUnwrapper.runList sequenceUnwrapper.init
            (([65535, 65536, 65537] : List Int).map
              (fun a => (a % 65536).toNat))).get? i = some xa ∧
          (sequenceUnwrapper.runList sequenceUnwrapper.init
            (([65535, 65536, 65537] : List Int).map
              (fun a => (a % 65536).toNat))).get? (i + 1) = some xb ∧
          xa < xb :=
  c7_unwrap_constant_offset [65535, 65536, 65537]
    (by
      rw [List.chain'_cons, List.chain'_cons]
      exact ⟨by decide, by decide, List.chain'_singleton _⟩)

/-- C8: on a non-empty packet list, `AssembleFrame` returns a frame
whose `Data` is the concatenation of the packets' payloads in list
order, whose `Timestamp` and (when the first packet's video header is
present) `FrameType` come from the first packet, whose wrapped first and
last sequence numbers come from the first and last packets, and whose
provisional `ID` is the next value of the monotonically increasing
counter (which is incremented); on an empty packet list it returns
`none`. -/
theorem c8_assembleFrame (a : VideoFrameAssembler) (p : BufferedPacket)
    (rest : List BufferedPacket) :
    (∃ fr, VideoFrameAssembler.AssembleFrame a (p :: rest) = (⟨a.frameIDCounter + 1⟩, some fr) ∧
      fr.Data = (((p :: rest).map (·.Payload)).flatten) ∧
      fr.Timestamp = p.Timestamp ∧
      (∀ h, p.VideoHeader = some h → fr.FrameType = h.FrameType) ∧
      fr.FirstSeqNum = (p.SequenceNumber % 65536).toNat ∧
      (∀ q, (p :: rest).getLast? = some q →
        fr.LastSeqNum = (q.SequenceNumber % 65536).toNat) ∧
      fr.ID = a.frameIDCounter) ∧
    VideoFrameAssembler.AssembleFrame a [] = (a, none) := by
  constructor
  · refine ⟨_, rfl, rfl, rfl, ?_, rfl, ?_, rfl⟩
    · intro h hh
      simp only [hh]
    · intro q hq
      have hgl : (p :: rest).getLast (by simp) = q := by
        rw [List.getLast?_eq_getLast _ (by simp)] at hq
        exact Option.some_injective _ hq
      simp only [← hgl]
  · rfl

namespace SeqNumOnlyRefFinder

theorem mem_sortedInsert (s t : stashedSeqNumFrame)
    (l : List stashedSeqNumFrame) :
    t ∈ sortedInsert s l ↔ t = s ∨ t ∈ l := by
  induction l with
  | nil => simp [sortedInsert]
  | cons u rest ih =>
    simp only [sortedInsert]
    split
    · simp
    · simp only [List.mem_cons, ih]
      tauto

theorem mem_sortStash (t : stashedSeqNumFrame)
    (l : List stashedSeqNumFrame) : t ∈ sortStash l ↔ t ∈ l := by
  induction l with
  | nil => simp [sortStash]
  | cons u rest ih =>
    simp only [sortStash, mem_sortedInsert, ih, List.mem_cons]

theorem stashFrame_mem (f : SeqNumOnlyRefFinder) (frame : EncodedFrame)
    (header : RTPVideoHeader) :
    frame ∈ (stashFrame f frame header).stashedFrames.map (·.frame) := by
  refine List.mem_map.2 ⟨⟨frame, header⟩, ?_, rfl⟩
  rw [show (stashFrame f frame header).stashedFrames
    = sortStash ((if maxStashedFrames ≤ f.stashedFrames.length
        then f.stashedFrames.drop 1 else f.stashedFrames) ++ [⟨frame, header⟩])
    from rfl]
  rw [mem_sortStash]
  simp

end SeqNumOnlyRefFinder

/-- C4: a delta frame handed to the SeqNumOnly reference finder is
handled exactly as specified: stashed (emitting nothing) before the
initial key frame; when its first unwrapped sequence number continues
the last processed frame, emitted with `ID` set to its first unwrapped
sequence number, one reference equal to the previous frame's first
unwrapped sequence number (the state field `lastFrameFirstSeqNum`), with
the two last-frame state fields advanced to the frame's first and last
unwrapped sequence numbers before the stash-resolution pass; otherwise
discarded when below the current GOP start, and stashed in every
remaining case (and a stashed frame is indeed in the resulting stash). -/
theorem c4_seqnum_delta_cases (f : SeqNumOnlyRefFinder)
    (frame : EncodedFrame) (header : RTPVideoHeader)
    (hd : frame.FrameType = FrameType.Delta) :
    (f.gotInitialFrame = false →
      SeqNumOnlyRefFinder.ManageFrame f frame header
        = (SeqNumOnlyRefFinder.stashFrame f frame header, [])) ∧
    (f.gotInitialFrame = true →
      frame.FirstSeqNumUnwrapped = f.lastFrameLastSeqNum + 1 →
      SeqNumOnlyRefFinder.ManageFrame f frame header
        = ((SeqNumOnlyRefFinder.tryResolveStashedFrames
            { f with lastFrameFirstSeqNum := frame.FirstSeqNumUnwrapped,
                     lastFrameLastSeqNum := frame.LastSeqNumUnwrapped }).1,
          { frame with ID := frame.FirstSeqNumUnwrapped,
                       NumReferences := 1,
                       References := frame.References.set 0 f.lastFrameFirstSeqNum }
            :: (SeqNumOnlyRefFinder.tryResolveStashedFrames
              { f with lastFrameFirstSeqNum := frame.FirstSeqNumUnwrapped,
                       lastFrameLastSeqNum := frame.LastSeqNumUnwrapped }).2)) ∧
    (f.gotInitialFrame = true →
      frame.FirstSeqNumUnwrapped ≠ f.lastFrameLastSeqNum + 1 →
      frame.FirstSeqNumUnwrapped < f.lastSeqNumGOP →
      SeqNumOnlyRefFinder.ManageFrame f frame header = (f, [])) ∧
    (f.gotInitialFrame = true →
      frame.FirstSeqNumUnwrapped ≠ f.lastFrameLastSeqNum + 1 →
      ¬ frame.FirstSeqNumUnwrapped < f.lastSeqNumGOP →
      SeqNumOnlyRefFinder.ManageFrame f frame header
        = (SeqNumOnlyRefFinder.stashFrame f frame header, [])) ∧
    frame ∈ (SeqNumOnlyRefFinder.stashFrame f frame header).stashedFrames.map
      (·.frame) := by
  refine ⟨?_, ?_, ?_, ?_, SeqNumOnlyRefFinder.stashFrame_mem f frame header⟩
  · intro hgot
    simp [SeqNumOnlyRefFinder.ManageFrame, hd,
      SeqNumOnlyRefFinder.handleDeltaFrame, hgot]
  · intro hgot hcont
    simp only [SeqNumOnlyRefFinder.ManageFrame, hd,
      SeqNumOnlyRefFinder.handleDeltaFrame, hgot, Bool.not_true,
      Bool.false_eq_true, if_false]
    rw [if_pos hcont]
  · intro hgot hcont hgop
    simp only [SeqNumOnlyRefFinder.ManageFrame, hd,
      SeqNumOnlyRefFinder.handleDeltaFrame, hgot, Bool.not_true,
      Bool.false_eq_true, if_false]
    rw [if_neg hcont, if_pos hgop]
  · intro hgot hcont hgop
    simp only [SeqNumOnlyRefFinder.ManageFrame, hd,
      SeqNumOnlyRefFinder.handleDeltaFrame, hgot, Bool.not_true,
      Bool.false_eq_true, if_false]
    rw [if_neg hcont, if_neg hgop]

/-- C4 witness: a delta frame at sequence 1001 continuing a processed
key frame 1000..1000 is emitted with one reference to 1000. -/
theorem c4_witness :
    ((⟨1000, 1000, 1000, true, []⟩ : SeqNumOnlyRefFinder).gotInitialFrame = false →
      SeqNumOnlyRefFinder.ManageFrame ⟨1000, 1000, 1000, true, []⟩
        { ID := 7, FirstSeqNum := 1001, LastSeqNum := 1001,
          FirstSeqNumUnwrapped := 1001, LastSeqNumUnwrapped := 1001,
          Timestamp := 93000, FrameType := FrameType.Delta, Data := [],
          Width := 0, Height := 0, NumReferences := 0,
          References := References.zero } (exHeader true true)
        = (SeqNumOnlyRefFinder.stashFrame ⟨1000, 1000, 1000, true, []⟩
            { ID := 7, FirstSeqNum := 1001, LastSeqNum := 1001,
              FirstSeqNumUnwrapped := 1001, LastSeqNumUnwrapped := 1001,
              Timestamp := 93000, FrameType := FrameType.Delta, Data := [],
              Width := 0, Height := 0, NumReferences := 0,
              References := References.zero } (exHeader true true), [])) ∧
    ((⟨1000, 1000, 1000, true, []⟩ : SeqNumOnlyRefFinder).gotInitialFrame = true →
      (1001 : Int) = (⟨1000, 1000, 1000, true, []⟩ : SeqNumOnlyRefFinder).lastFrameLastSeqNum + 1 →
      SeqNumOnlyRefFinder.ManageFrame ⟨1000, 1000, 1000, true, []⟩
        { ID := 7, FirstSeqNum := 1001, LastSeqNum := 1001,
          FirstSeqNumUnwrapped := 1001, LastSeqNumUnwrapped := 1001,
          Timestamp := 93000, FrameType := FrameType.Delta, Data := [],
          Width := 0, Height := 0, NumReferences := 0,
          References := References.zero } (exHeader true true)
        = ((SeqNumOnlyRefFinder.tryResolveStashedFrames
            { (⟨1000, 1000, 1000, true, []⟩ : SeqNumOnlyRefFinder) with
                lastFrameFirstSeqNum := (1001 : Int),
                lastFrameLastSeqNum := (1001 : Int) }).1,
          { ID := (1001 : Int), FirstSeqNum := 1001, LastSeqNum := 1001,
            FirstSeqNumUnwrapped := 1001, LastSeqNumUnwrapped := 1001,
            Timestamp := 93000, FrameType := FrameType.Delta, Data := [],
            Width := 0, Height := 0, NumReferences := 1,
            References := References.zero.set 0 (1000 : Int) }
            :: (SeqNumOnlyRefFinder.tryResolveStashedFrames
              { (⟨1000, 1000, 1000, true, []⟩ : SeqNumOnlyRefFinder) with
                  lastFrameFirstSeqNum := (1001 : Int),
                  lastFrameLastSeqNum := (1001 : Int) }).2)) ∧
    ((⟨1000, 1000, 1000, true, []⟩ : SeqNumOnlyRefFinder).gotInitialFrame = true →
      (1001 : Int) ≠ (⟨1000, 1000, 1000, true, []⟩ : SeqNumOnlyRefFinder).lastFrameLastSeqNum + 1 →
      (1001 : Int) < (⟨1000, 1000, 1000, true, []⟩ : SeqNumOnlyRefFinder).lastSeqNumGOP →
      SeqNumOnlyRefFinder.ManageFrame ⟨1000, 1000, 1000, true, []⟩
        { ID := 7, FirstSeqNum := 1001, LastSeqNum := 1001,
          FirstSeqNumUnwrapped := 1001, LastSeqNumUnwrapped := 1001,
          Timestamp := 93000, FrameType := FrameType.Delta, Data := [],
          Width := 0, Height := 0, NumReferences := 0,
          References := References.zero } (exHeader true true)
        = (⟨1000, 1000, 1000, true, []⟩, [])) ∧
    ((⟨1000, 1000, 1000, true, []⟩ : SeqNumOnlyRefFinder).gotInitialFrame = true →
      (1001 : Int) ≠ (⟨1000, 1000, 1000, true, []⟩ : SeqNumOnlyRefFinder).lastFrameLastSeqNum + 1 →
      ¬ (1001 : Int) < (⟨1000, 1000, 1000, true, []⟩ : SeqNumOnlyRefFinder).lastSeqNumGOP →
      SeqNumOnlyRefFinder.ManageFrame ⟨1000, 1000, 1000, true, []⟩
        { ID := 7, FirstSeqNum := 1001, LastSeqNum := 1001,
          FirstSeqNumUnwrapped := 1001, LastSeqNumUnwrapped := 1001,
          Timestamp := 93000, FrameType := FrameType.Delta, Data := [],
          Width := 0, Height := 0, NumReferences := 0,
          References := References.zero } (exHeader true true)
        = (SeqNumOnlyRefFinder.stashFrame ⟨1000, 1000, 1000, true, []⟩
            { ID := 7, FirstSeqNum := 1001, LastSeqNum := 1001,
              FirstSeqNumUnwrapped := 1001, LastSeqNumUnwrapped := 1001,
              Timestamp := 93000, FrameType := FrameType.Delta, Data := [],
              Width := 0, Height := 0, NumReferences := 0,
              References := References.zero } (exHeader true true), [])) ∧
    ({ ID := 7, FirstSeqNum := 1001, LastSeqNum := 1001,
        FirstSeqNumUnwrapped := 1001, LastSeqNumUnwrapped := 1001,
        Timestamp := 93000, FrameType := FrameType.Delta, Data := [],
        Width := 0, Height := 0, NumReferences := 0,
        References := References.zero } : EncodedFrame)
      ∈ (SeqNumOnlyRefFinder.stashFrame ⟨1000, 1000, 1000, true, []⟩
          { ID := 7, FirstSeqNum := 1001, LastSeqNum := 1001,
            FirstSeqNumUnwrapped := 1001, LastSeqNumUnwrapped := 1001,
            Timestamp := 93000, FrameType := FrameType.Delta, Data := [],
            Width := 0, Height := 0, NumReferences := 0,
            References := References.zero } (exHeader true true)).stashedFrames.map
        (·.frame) :=
  c4_seqnum_delta_cases ⟨1000, 1000, 1000, true, []⟩
    { ID := 7, FirstSeqNum := 1001, LastSeqNum := 1001,
      FirstSeqNumUnwrapped := 1001, LastSeqNumUnwrapped := 1001,
      Timestamp := 93000, FrameType := FrameType.Delta, Data := [],
      Width := 0, Height := 0, NumReferences := 0,
      References := References.zero } (exHeader true true) rfl

namespace SeqNumOnlyRefFinder

theorem findResolvableIdx_spec :
    ∀ (stash : List stashedSeqNumFrame) (expected : Int) (i : Nat),
    findResolvableIdx stash expected = some i →
    ∃ s, stash.get? i = some s ∧ s.frame.FirstSeqNumUnwrapped = expected := by
  intro stash
  induction stash with
  | nil => intro expected i h; simp [findResolvableIdx] at h
  | cons s rest ih =>
    intro expected i h
    simp only [findResolvableIdx] at h
    split at h
    · rename_i hs
      cases h
      exact ⟨s, rfl, hs⟩
    · cases hr : findResolvableIdx rest expected with
      | none => rw [hr] at h; cases h
      | some j =>
        rw [hr] at h
        simp only [Option.map_some'] at h
        cases h
        obtain ⟨t, ht, hte⟩ := ih expected j hr
        exact ⟨t, by simpa using ht, hte⟩

theorem mem_of_mem_eraseIdx {t : stashedSeqNumFrame}
    {l : List stashedSeqNumFrame} {i : Nat}
    (h : t ∈ l.eraseIdx i) : t ∈ l := by
  induction l generalizing i with
  | nil => simp [List.eraseIdx] at h
  | cons u rest ih =>
    cases i with
    | zero => exact List.mem_cons_of_mem _ h
    | succ j =>
      simp only [List.eraseIdx, List.mem_cons] at h ⊢
      rcases h with h | h
      · exact Or.inl h
      · exact Or.inr (ih h)

/-- Every frame produced by the stash-resolution loop is a delta frame
with a single reference strictly below its ID, and the loop preserves
the finder's state invariant. -/
theorem tryResolveLoop_refs :
    ∀ (fuel : Nat) (f : SeqNumOnlyRefFinder), SeqNumInv f →
    (∀ g ∈ (tryResolveLoop f fuel).2,
      g.FrameType = FrameType.Delta ∧ RefInvariant g) ∧
    SeqNumInv (tryResolveLoop f fuel).1 := by
  intro fuel
  induction fuel with
  | zero =>
    intro f hinv
    exact ⟨by simp [tryResolveLoop], hinv⟩
  | succ n ih =>
    intro f hinv
    simp only [tryResolveLoop]
    cases hfind : findResolvableIdx f.stashedFrames (f.lastFrameLastSeqNum + 1) with
    | none =>
      simp only [hfind]
      exact ⟨by simp, hinv⟩
    | some i =>
      simp only [hfind]
      cases hget : f.stashedFrames.get? i with
      | none =>
        obtain ⟨s, hs, hse⟩ := findResolvableIdx_spec _ _ i hfind
        rw [hget] at hs
        cases hs
      | some stashed =>
        have hse : stashed.frame.FirstSeqNumUnwrapped
            = f.lastFrameLastSeqNum + 1 := by
          obtain ⟨s, hs, hse⟩ := findResolvableIdx_spec _ _ i hfind
          rw [hget] at hs
          injection hs with h2
          rw [h2]
          exact hse
        simp only [hget]
        have hmem : stashed ∈ f.stashedFrames := List.get?_mem hget
        obtain ⟨hdelta, hfl⟩ := hinv.2 stashed hmem
        have hinv1 : SeqNumInv
            { f with
              lastFrameFirstSeqNum := stashed.frame.FirstSeqNumUnwrapped
              lastFrameLastSeqNum := stashed.frame.LastSeqNumUnwrapped
              stashedFrames := f.stashedFrames.eraseIdx i } := by
          refine ⟨hfl, ?_⟩
          intro t ht
          exact hinv.2 t (mem_of_mem_eraseIdx ht)
        have hrec := ih _ hinv1
        refine ⟨?_, hrec.2⟩
        intro g hg
        rcases List.mem_cons.1 hg with hg1 | hg2
        · subst hg1
          refine ⟨hdelta, ?_, ?_⟩
          · intro hk
            have hk2 : stashed.frame.FrameType = FrameType.Key := hk
            rw [hdelta] at hk2
            exact FrameType.noConfusion hk2
          · intro _ j hj
            have hj1 : j < 1 := hj
            interval_cases j
            have hlt : f.lastFrameFirstSeqNum < stashed.frame.FirstSeqNumUnwrapped := by
              have h1 := hinv.1
              omega
            exact hlt
        · exact hrec.1 g hg2

end SeqNumOnlyRefFinder

/-- C5: every frame emitted by the SeqNumOnly reference finder (from a
state satisfying its invariant, on a frame whose first unwrapped
sequence number does not exceed its last) and every frame emitted by the
FrameIdOnly reference finder (on a frame with no references yet, as the
assembler produces) satisfies: a key frame has `num_references = 0`, and
a delta frame's references are all strictly below its `id`. -/
theorem c5_references_strictly_below_id (f : SeqNumOnlyRefFinder)
    (u : FrameIdOnlyRefFinder) (fr1 fr2 : EncodedFrame)
    (h1 h2 : RTPVideoHeader) (hinv : SeqNumInv f)
    (hfl : fr1.FirstSeqNumUnwrapped ≤ fr1.LastSeqNumUnwrapped)
    (hnum : fr2.NumReferences = 0) :
    (∀ g ∈ (SeqNumOnlyRefFinder.ManageFrame f fr1 h1).2, RefInvariant g) ∧
    (∀ g ∈ (FrameIdOnlyRefFinder.ManageFrame u fr2 h2).2, RefInvariant g) := by
  constructor
  · intro g hg
    cases hft : fr1.FrameType with
    | Key =>
      simp only [SeqNumOnlyRefFinder.ManageFrame, hft,
        SeqNumOnlyRefFinder.handleKeyframe] at hg
      rcases List.mem_cons.1 hg with hg1 | hg2
      · subst hg1
        constructor
        · intro _
          rfl
        · intro hk
          exact FrameType.noConfusion
            (show FrameType.Key = FrameType.Delta from hk)
      · have hinv2 : SeqNumInv
            (SeqNumOnlyRefFinder.clearStashedFramesBefore
              { f with
                lastSeqNumGOP := fr1.FirstSeqNumUnwrapped
                lastFrameFirstSeqNum := fr1.FirstSeqNumUnwrapped
                lastFrameLastSeqNum := fr1.LastSeqNumUnwrapped
                gotInitialFrame := true } fr1.FirstSeqNumUnwrapped) := by
          refine ⟨hfl, ?_⟩
          intro t ht
          simp only [SeqNumOnlyRefFinder.clearStashedFramesBefore,
            List.mem_filter] at ht
          exact hinv.2 t ht.1
        have hg3 : g ∈ (SeqNumOnlyRefFinder.tryResolveLoop
            (SeqNumOnlyRefFinder.clearStashedFramesBefore
              { f with
                lastSeqNumGOP := fr1.FirstSeqNumUnwrapped
                lastFrameFirstSeqNum := fr1.FirstSeqNumUnwrapped
                lastFrameLastSeqNum := fr1.LastSeqNumUnwrapped
                gotInitialFrame := true } fr1.FirstSeqNumUnwrapped)
            (SeqNumOnlyRefFinder.clearStashedFramesBefore
              { f with
                lastSeqNumGOP := fr1.FirstSeqNumUnwrapped
                lastFrameFirstSeqNum := fr1.FirstSeqNumUnwrapped
                lastFrameLastSeqNum := fr1.LastSeqNumUnwrapped
                gotInitialFrame := true }
              fr1.FirstSeqNumUnwrapped).stashedFrames.length).2 := hg2
        exact ((SeqNumOnlyRefFinder.tryResolveLoop_refs _ _ hinv2).1 g hg3).2
    | Delta =>
      simp only [SeqNumOnlyRefFinder.ManageFrame, hft,
        SeqNumOnlyRefFinder.handleDeltaFrame] at hg
      by_cases hgot : f.gotInitialFrame
      · simp only [hgot, Bool.not_true, Bool.false_eq_true, if_false] at hg
        by_cases hcont : fr1.FirstSeqNumUnwrapped = f.lastFrameLastSeqNum + 1
        · rw [if_pos hcont] at hg
          rcases List.mem_cons.1 hg with hg1 | hg2
          · subst hg1
            constructor
            · intro hk
              exact FrameType.noConfusion
                (show FrameType.Delta = FrameType.Key from hk)
            · intro _ j hj
              have hj1 : j < 1 := hj
              interval_cases j
              have hlt : f.lastFrameFirstSeqNum < fr1.FirstSeqNumUnwrapped := by
                have hle := hinv.1
                omega
              exact hlt
          · have hinv1 : SeqNumInv
                { lastSeqNumGOP := f.lastSeqNumGOP
                  lastFrameFirstSeqNum := fr1.FirstSeqNumUnwrapped
                  lastFrameLastSeqNum := fr1.LastSeqNumUnwrapped
                  gotInitialFrame := true
                  stashedFrames := f.stashedFrames } :=
              ⟨hfl, hinv.2⟩
            have hg3 : g ∈ (SeqNumOnlyRefFinder.tryResolveLoop
                { lastSeqNumGOP := f.lastSeqNumGOP
                  lastFrameFirstSeqNum := fr1.FirstSeqNumUnwrapped
                  lastFrameLastSeqNum := fr1.LastSeqNumUnwrapped
                  gotInitialFrame := true
                  stashedFrames := f.stashedFrames }
                f.stashedFrames.length).2 := hg2
            exact ((SeqNumOnlyRefFinder.tryResolveLoop_refs _ _ hinv1).1 g hg3).2
        · rw [if_neg hcont] at hg
          split at hg
          · simp at hg
          · simp at hg
      · simp only [Bool.not_eq_true] at hgot
        simp only [hgot, Bool.not_false, if_true] at hg
        simp at hg
  · intro g hg
    simp only [FrameIdOnlyRefFinder.ManageFrame] at hg
    by_cases hpid : h2.PictureID = -1
    · rw [if_pos hpid] at hg
      simp only [List.mem_singleton] at hg
      subst hg
      exact ⟨fun _ => hnum, fun _ j hj => by omega⟩
    · rw [if_neg hpid] at hg
      split at hg
      · simp at hg
      · split at hg
        · rename_i hft2
          simp only [List.mem_singleton] at hg
          subst hg
          have hft2b : fr2.FrameType = FrameType.Key := hft2
          constructor
          · intro _
            rfl
          · intro hk
            have hk2 : fr2.FrameType = FrameType.Delta := hk
            rw [hft2b] at hk2
            exact FrameType.noConfusion hk2
        · rename_i hft2
          simp only [List.mem_singleton] at hg
          subst hg
          have hft2b : fr2.FrameType = FrameType.Delta := hft2
          constructor
          · intro hk
            have hk2 : fr2.FrameType = FrameType.Key := hk
            rw [hft2b] at hk2
            exact FrameType.noConfusion hk2
          · intro _ j hj
            have hj1 : j < 1 := hj
            interval_cases j
            have hlt : (u.unwrapper.Unwrap h2.PictureID).2 - 1
                < (u.unwrapper.Unwrap h2.PictureID).2 := by omega
            exact hlt

/-- C5 witness: a fresh SeqNumOnly finder fed a key frame 1000..1001 and
a fresh FrameIdOnly finder fed a delta frame with picture ID 5. -/
theorem c5_witness :
    (∀ g ∈ (SeqNumOnlyRefFinder.ManageFrame SeqNumOnlyRefFinder.init
        { ID := 0, FirstSeqNum := 1000, LastSeqNum := 1001,
          FirstSeqNumUnwrapped := 1000, LastSeqNumUnwrapped := 1001,
          Timestamp := 90000, FrameType := FrameType.Key, Data := [],
          Width := 0, Height := 0, NumReferences := 0,
          References := References.zero } (exHeader true false)).2,
      RefInvariant g) ∧
    (∀ g ∈ (FrameIdOnlyRefFinder.ManageFrame FrameIdOnlyRefFinder.init
        { ID := 3, FirstSeqNum := 2000, LastSeqNum := 2000,
          FirstSeqNumUnwrapped := 2000, LastSeqNumUnwrapped := 2000,
          Timestamp := 91000, FrameType := FrameType.Delta, Data := [],
          Width := 0, Height := 0, NumReferences := 0,
          References := References.zero }
        ⟨FrameType.Delta, true, true, 5, -1, -1⟩).2,
      RefInvariant g) :=
  c5_references_strictly_below_id SeqNumOnlyRefFinder.init
    FrameIdOnlyRefFinder.init
    { ID := 0, FirstSeqNum := 1000, LastSeqNum := 1001,
      FirstSeqNumUnwrapped := 1000, LastSeqNumUnwrapped := 1001,
      Timestamp := 90000, FrameType := FrameType.Key, Data := [],
      Width := 0, Height := 0, NumReferences := 0,
      References := References.zero }
    { ID := 3, FirstSeqNum := 2000, LastSeqNum := 2000,
      FirstSeqNumUnwrapped := 2000, LastSeqNumUnwrapped := 2000,
      Timestamp := 91000, FrameType := FrameType.Delta, Data := [],
      Width := 0, Height := 0, NumReferences := 0,
      References := References.zero }
    (exHeader true false) ⟨FrameType.Delta, true, true, 5, -1, -1⟩
    ⟨by decide, by simp [SeqNumOnlyRefFinder.init]⟩ (by decide) rfl

namespace VP8RefFinder

theorem mem_sortedInsertVP8 (s t : stashedVP8Frame)
    (l : List stashedVP8Frame) :
    t ∈ sortedInsertVP8 s l ↔ t = s ∨ t ∈ l := by
  induction l with
  | nil => simp [sortedInsertVP8]
  | cons u rest ih =>
    simp only [sortedInsertVP8]
    split
    · simp
    · simp only [List.mem_cons, ih]
      tauto

theorem mem_sortStashVP8 (t : stashedVP8Frame)
    (l : List stashedVP8Frame) : t ∈ sortStashVP8 l ↔ t ∈ l := by
  induction l with
  | nil => simp [sortStashVP8]
  | cons u rest ih =>
    simp only [sortStashVP8, mem_sortedInsertVP8, ih, List.mem_cons]

theorem stashFrame_memVP8 (f : VP8RefFinder) (frame : EncodedFrame)
    (header : RTPVideoHeader) (pid tl0 : Int) :
    frame ∈ (stashFrame f frame header pid tl0).stashedFrames.map (·.frame) := by
  refine List.mem_map.2 ⟨⟨frame, header, pid, tl0⟩, ?_, rfl⟩
  rw [show (stashFrame f frame header pid tl0).stashedFrames
    = sortStashVP8 ((if maxStashedFrames ≤ f.stashedFrames.length
        then f.stashedFrames.drop 1 else f.stashedFrames)
      ++ [⟨frame, header, pid, tl0⟩]) from rfl]
  rw [mem_sortStashVP8]
  simp

theorem updateLayerInfo_got (f : VP8RefFinder) (tl0 tid pid : Int)
    (f1 : VP8RefFinder) (h : updateLayerInfo f tl0 tid pid = some f1) :
    f1.gotInitialFrame = f.gotInitialFrame := by
  simp only [updateLayerInfo] at h
  split at h
  · cases h
  · cases h
    rfl

theorem tryProcessStashedFrame_got (f : VP8RefFinder)
    (s : stashedVP8Frame) (r : VP8RefFinder × List EncodedFrame)
    (h : tryProcessStashedFrame f s = some r) :
    r.1.gotInitialFrame = f.gotInitialFrame := by
  simp only [tryProcessStashedFrame] at h
  split at h
  · cases h; rfl
  · split at h
    · cases h; rfl
    · split at h
      · cases h
      · rename_i f1 hupd
        cases h
        exact updateLayerInfo_got f _ _ _ f1 hupd

theorem scanStash_got (f : VP8RefFinder) :
    ∀ (l : List stashedVP8Frame) (i0 : Nat) (i : Nat) (f1 : VP8RefFinder)
    (frames : List EncodedFrame),
    scanStash f l i0 = some (some (i, f1, frames)) →
    f1.gotInitialFrame = f.gotInitialFrame := by
  intro l
  induction l with
  | nil => intro i0 i f1 frames h; simp [scanStash] at h
  | cons s rest ih =>
    intro i0 i f1 frames h
    simp only [scanStash] at h
    split at h
    · cases h
    · rename_i r hproc
      split at h
      · exact ih (i0 + 1) i f1 frames h
      · cases h
        exact tryProcessStashedFrame_got f s r hproc

theorem tryResolveLoop_got :
    ∀ (fuel : Nat) (f : VP8RefFinder) (r : VP8RefFinder × List EncodedFrame),
    tryResolveLoop f fuel = some r →
    r.1.gotInitialFrame = f.gotInitialFrame := by
  intro fuel
  induction fuel with
  | zero => intro f r h; cases h; rfl
  | succ n ih =>
    intro f r h
    simp only [tryResolveLoop] at h
    split at h
    · cases h
    · cases h; rfl
    · rename_i i f1 frames hscan
      split at h
      · cases h
      · rename_i r2 hrec
        cases h
        have h1 : f1.gotInitialFrame = f.gotInitialFrame :=
          scanStash_got f f.stashedFrames 0 i f1 frames hscan
        have h2 :=
          ih { f1 with stashedFrames := f1.stashedFrames.eraseIdx i } r2 hrec
        rw [h2]
        exact h1

theorem tryResolveStashedFrames_got (f : VP8RefFinder)
    (r : VP8RefFinder × List EncodedFrame)
    (h : f.tryResolveStashedFrames = some r) :
    r.1.gotInitialFrame = f.gotInitialFrame :=
  tryResolveLoop_got f.stashedFrames.length f r h

end VP8RefFinder

/-- C10: in the VP8 reference finder, a frame whose `FrameType` is Key
but whose clamped temporal index is nonzero does not take the key-frame
path: `ManageFrame` dispatches it to `handleDeltaFrame` (the clamp is
from above only, so this includes a negative temporal index other than
the `-1` sentinel), so before the initial key frame it is stashed with
nothing emitted, the layer map is not reset and `gotInitialFrame` is not
set.  Only a key frame with clamped temporal index 0 takes the key-frame
path; whenever that path returns (`none` models a Go panic inside the
stash-resolution pass), the key frame is emitted first with
`num_references = 0` and `gotInitialFrame` is set. -/
theorem c10_vp8_key_nonzero_tid_is_delta (f : VP8RefFinder)
    (frame : EncodedFrame) (header : RTPVideoHeader)
    (hKey : frame.FrameType = FrameType.Key)
    (hTi : header.TemporalIdx ≠ -1) (hTl : header.TL0PicIdx ≠ -1)
    (hPid : header.PictureID ≠ -1)
    (hpid0 : 0 ≤ (f.pidUnwrapper.Unwrap header.PictureID).2)
    (htl00 : 0 ≤ (f.tl0Unwrapper.Unwrap header.TL0PicIdx).2) :
    (VP8RefFinder.clampTid header.TemporalIdx ≠ 0 →
      VP8RefFinder.ManageFrame f frame header
        = VP8RefFinder.handleDeltaFrame
            { f with pidUnwrapper := (f.pidUnwrapper.Unwrap header.PictureID).1,
                     tl0Unwrapper := (f.tl0Unwrapper.Unwrap header.TL0PicIdx).1 }
            { frame with ID := (f.pidUnwrapper.Unwrap header.PictureID).2 }
            header (f.pidUnwrapper.Unwrap header.PictureID).2
            (f.tl0Unwrapper.Unwrap header.TL0PicIdx).2
            (VP8RefFinder.clampTid header.TemporalIdx)) ∧
    (VP8RefFinder.clampTid header.TemporalIdx ≠ 0 →
      f.gotInitialFrame = false →
      ∃ g, VP8RefFinder.ManageFrame f frame header = some g ∧
        g.2 = [] ∧
        { frame with ID := (f.pidUnwrapper.Unwrap header.PictureID).2 }
          ∈ g.1.stashedFrames.map (·.frame) ∧
        g.1.gotInitialFrame = false ∧
        g.1.layerInfo = f.layerInfo) ∧
    (VP8RefFinder.clampTid header.TemporalIdx = 0 →
      ∀ g, VP8RefFinder.ManageFrame f frame header = some g →
        g.2.head?
          = some { frame with ID := (f.pidUnwrapper.Unwrap header.PictureID).2,
                              NumReferences := 0 } ∧
        g.1.gotInitialFrame = true) := by
  have hval : ¬ (header.TemporalIdx = -1 ∨ header.TL0PicIdx = -1 ∨
      header.PictureID = -1) := by
    push_neg
    exact ⟨hTi, hTl, hPid⟩
  have hneg : ¬ ((f.pidUnwrapper.Unwrap header.PictureID).2 < 0 ∨
      (f.tl0Unwrapper.Unwrap header.TL0PicIdx).2 < 0) := by
    push_neg
    exact ⟨hpid0, htl00⟩
  have hKey1 : ({ frame with
      ID := (f.pidUnwrapper.Unwrap header.PictureID).2 } : EncodedFrame).FrameType
      = FrameType.Key := hKey
  refine ⟨?_, ?_, ?_⟩
  · intro htid
    simp only [VP8RefFinder.ManageFrame]
    rw [if_neg hval, if_neg hneg, if_neg (fun hc => htid hc.2)]
  · intro htid hgot
    have hdisp : VP8RefFinder.ManageFrame f frame header
        = VP8RefFinder.handleDeltaFrame
            { f with pidUnwrapper := (f.pidUnwrapper.Unwrap header.PictureID).1,
                     tl0Unwrapper := (f.tl0Unwrapper.Unwrap header.TL0PicIdx).1 }
            { frame with ID := (f.pidUnwrapper.Unwrap header.PictureID).2 }
            header (f.pidUnwrapper.Unwrap header.PictureID).2
            (f.tl0Unwrapper.Unwrap header.TL0PicIdx).2
            (VP8RefFinder.clampTid header.TemporalIdx) := by
      simp only [VP8RefFinder.ManageFrame]
      rw [if_neg hval, if_neg hneg, if_neg (fun hc => htid hc.2)]
    have hbranch : VP8RefFinder.handleDeltaFrame
        { f with pidUnwrapper := (f.pidUnwrapper.Unwrap header.PictureID).1,
                 tl0Unwrapper := (f.tl0Unwrapper.Unwrap header.TL0PicIdx).1 }
        { frame with ID := (f.pidUnwrapper.Unwrap header.PictureID).2 }
        header (f.pidUnwrapper.Unwrap header.PictureID).2
        (f.tl0Unwrapper.Unwrap header.TL0PicIdx).2
        (VP8RefFinder.clampTid header.TemporalIdx)
        = some (VP8RefFinder.stashFrame
            { f with pidUnwrapper := (f.pidUnwrapper.Unwrap header.PictureID).1,
                     tl0Unwrapper := (f.tl0Unwrapper.Unwrap header.TL0PicIdx).1 }
            { frame with ID := (f.pidUnwrapper.Unwrap header.PictureID).2 }
            header (f.pidUnwrapper.Unwrap header.PictureID).2
            (f.tl0Unwrapper.Unwrap header.TL0PicIdx).2, []) := by
      have hgotf : ({ f with
          pidUnwrapper := (f.pidUnwrapper.Unwrap header.PictureID).1
          tl0Unwrapper := (f.tl0Unwrapper.Unwrap header.TL0PicIdx).1 }
            : VP8RefFinder).gotInitialFrame = f.gotInitialFrame := rfl
      simp only [VP8RefFinder.handleDeltaFrame]
      rw [hgotf, hgot]
      rfl
    refine ⟨_, hdisp.trans hbranch, rfl,
      VP8RefFinder.stashFrame_memVP8 _ _ _ _ _, hgot, rfl⟩
  · intro htid0 g hg
    simp only [VP8RefFinder.ManageFrame] at hg
    rw [if_neg hval, if_neg hneg, if_pos ⟨hKey1, htid0⟩] at hg
    simp only [VP8RefFinder.handleKeyframe] at hg
    split at hg
    · cases hg
    · rename_i r hres
      cases hg
      refine ⟨rfl, ?_⟩
      rw [VP8RefFinder.tryResolveStashedFrames_got _ r hres]
      rfl

/-- C10 witness: on a fresh VP8 finder, a key frame with the negative
temporal index -2 (picture ID 5, TL0 2) is dispatched to the delta
path — the clamp keeps -2 nonzero — and is stashed with nothing
emitted. -/
theorem c10_witness :
    (VP8RefFinder.clampTid (-2 : Int) ≠ 0 →
      VP8RefFinder.ManageFrame VP8RefFinder.init
          { ID := 0, FirstSeqNum := 0, LastSeqNum := 0,
            FirstSeqNumUnwrapped := 0, LastSeqNumUnwrapped := 0,
            Timestamp := 0, FrameType := FrameType.Key, Data := [],
            Width := 0, Height := 0, NumReferences := 0,
            References := References.zero }
          ⟨FrameType.Key, true, true, 5, -2, 2⟩
        = VP8RefFinder.handleDeltaFrame
            { VP8RefFinder.init with
              pidUnwrapper := (VP8RefFinder.init.pidUnwrapper.Unwrap 5).1,
              tl0Unwrapper := (VP8RefFinder.init.tl0Unwrapper.Unwrap 2).1 }
            { ID := (VP8RefFinder.init.pidUnwrapper.Unwrap 5).2,
              FirstSeqNum := 0, LastSeqNum := 0,
              FirstSeqNumUnwrapped := 0, LastSeqNumUnwrapped := 0,
              Timestamp := 0, FrameType := FrameType.Key, Data := [],
              Width := 0, Height := 0, NumReferences := 0,
              References := References.zero }
            ⟨FrameType.Key, true, true, 5, -2, 2⟩
            (VP8RefFinder.init.pidUnwrapper.Unwrap 5).2
            (VP8RefFinder.init.tl0Unwrapper.Unwrap 2).2
            (VP8RefFinder.clampTid (-2))) ∧
    (VP8RefFinder.clampTid (-2 : Int) ≠ 0 →
      VP8RefFinder.init.gotInitialFrame = false →
      ∃ g, VP8RefFinder.ManageFrame VP8RefFinder.init
          { ID := 0, FirstSeqNum := 0, LastSeqNum := 0,
            FirstSeqNumUnwrapped := 0, LastSeqNumUnwrapped := 0,
            Timestamp := 0, FrameType := FrameType.Key, Data := [],
            Width := 0, Height := 0, NumReferences := 0,
            References := References.zero }
          ⟨FrameType.Key, true, true, 5, -2, 2⟩ = some g ∧
        g.2 = [] ∧
        ({ ID := (VP8RefFinder.init.pidUnwrapper.Unwrap 5).2,
            FirstSeqNum := 0, LastSeqNum := 0,
            FirstSeqNumUnwrapped := 0, LastSeqNumUnwrapped := 0,
            Timestamp := 0, FrameType := FrameType.Key, Data := [],
            Width := 0, Height := 0, NumReferences := 0,
            References := References.zero } : EncodedFrame)
          ∈ g.1.stashedFrames.map (·.frame) ∧
        g.1.gotInitialFrame = false ∧
        g.1.layerInfo = VP8RefFinder.init.layerInfo) ∧
    (VP8RefFinder.clampTid (-2 : Int) = 0 →
      ∀ g, VP8RefFinder.ManageFrame VP8RefFinder.init
          { ID := 0, FirstSeqNum := 0, LastSeqNum := 0,
            FirstSeqNumUnwrapped := 0, LastSeqNumUnwrapped := 0,
            Timestamp := 0, FrameType := FrameType.Key, Data := [],
            Width := 0, Height := 0, NumReferences := 0,
            References := References.zero }
          ⟨FrameType.Key, true, true, 5, -2, 2⟩ = some g →
        g.2.head?
          = some ({ ID := (VP8RefFinder.init.pidUnwrapper.Unwrap 5).2,
                    FirstSeqNum := 0, LastSeqNum := 0,
                    FirstSeqNumUnwrapped := 0, LastSeqNumUnwrapped := 0,
                    Timestamp := 0, FrameType := FrameType.Key, Data := [],
                    Width := 0, Height := 0, NumReferences := 0,
                    References := References.zero } : EncodedFrame) ∧
        g.1.gotInitialFrame = true) :=
  c10_vp8_key_nonzero_tid_is_delta VP8RefFinder.init
    { ID := 0, FirstSeqNum := 0, LastSeqNum := 0,
      FirstSeqNumUnwrapped := 0, LastSeqNumUnwrapped := 0,
      Timestamp := 0, FrameType := FrameType.Key, Data := [],
      Width := 0, Height := 0, NumReferences := 0,
      References := References.zero }
    ⟨FrameType.Key, true, true, 5, -2, 2⟩ rfl (by decide) (by decide)
    (by decide) (by decide) (by decide)

end Videoframe
